import Mathlib

/-!
Verification of the mive chain-state engine against its natural-language
specification, via a shallow embedding of the Go source into Lean.

Modelling conventions, shared by every definition below:
* Hashes and addresses are natural numbers; the zero value plays the role of
  the empty hash / empty address, exactly as in the source, where a zero
  common.Hash denotes absence.
* Go uint64 values are embedded as Nat; where the source performs overflow
  detection (common/math.SafeMul) this is made explicit against 2^64.
* big.Int fee fields of upstream transactions are nonnegative (they decode
  from unsigned RLP data), so they are embedded as Nat and big.Int.Div is
  Nat division.
* External collaborators (the upstream RPC client, the RLP decoder for the
  inner transaction, the signature recoverer, the state-trie commitment,
  geth config-compatibility checks, the consensus verifier) are parameters
  of the embedded functions: the embedding is faithful to how the source
  consumes their results, not to their internals.
* Bounded LRU caches are omitted: per the specification every correctness
  property must hold with cache capacity zero, and every cached read in the
  source falls back to the authoritative store.
-/

namespace Mive

/-- Hashes are modelled as naturals; 0 is the empty (zero) hash. -/
abbrev Hash := Nat

/-- Addresses are modelled as naturals; 0 is the zero address. -/
abbrev Addr := Nat

/-- Largest value representable in a Go uint64. -/
def maxUint64 : Nat := 2 ^ 64 - 1

/-! ### Chain configuration (src/params/config.go, src/params/protocol_params.go) -/

/-- Default fee reduction denominator (src/params/protocol_params.go line 6). -/
def DefaultFeeReductionDenominator : Nat := 50

/-- Default block gas limit multiplier (src/params/protocol_params.go line 7). -/
def DefaultBlockGasLimitMultiplier : Nat := 100

/-- Default minimum block gas limit (src/params/protocol_params.go line 8). -/
def DefaultMinBlockGasLimit : Nat := 30000000

/-- Embedded slice of the upstream (geth) chain config: the fields this
repository reads or overrides. -/
structure EthChainConfig where
  cancunTime : Option Nat
  verkleTime : Option Nat
  clique : Bool
  deriving DecidableEq, Repr

/-- MiveChainConfig (src/params/config.go). -/
structure MiveChainConfig where
  genesisBlock : Nat
  beaconAddress : Addr
  deriving DecidableEq, Repr

/-- ChainConfig (src/params/config.go): upstream config plus mive config. -/
structure ChainConfig where
  eth : EthChainConfig
  mive : MiveChainConfig
  deriving DecidableEq, Repr

/-- ChainConfig.FeeReductionDenominator: returns the package constant
regardless of the receiver, as in src/params/config.go lines 38-40. -/
def ChainConfig.FeeReductionDenominator (_ : ChainConfig) : Nat :=
  DefaultFeeReductionDenominator

/-- ChainConfig.BlockGasLimitMultiplier (src/params/config.go lines 43-45). -/
def ChainConfig.BlockGasLimitMultiplier (_ : ChainConfig) : Nat :=
  DefaultBlockGasLimitMultiplier

/-- ChainConfig.MinBlockGasLimit (src/params/config.go lines 48-50). -/
def ChainConfig.MinBlockGasLimit (_ : ChainConfig) : Nat :=
  DefaultMinBlockGasLimit

/-- MainnetChainConfig's mive part: genesis block 0, default beacon address
(src/params/config.go lines 12-18; the beacon address constant is embedded
as an abstract nonzero address). -/
def mainnetConfig : ChainConfig :=
  { eth := { cancunTime := none, verkleTime := none, clique := false }
    mive := { genesisBlock := 0, beaconAddress := 12638 } }

/-! ### Block gas limit transform (src/core/evm.go) -/

/-- SafeMul from geth common/math: the wrapped uint64 product together with
an overflow flag. -/
def SafeMul (x y : Nat) : Nat × Bool :=
  (x * y % 2 ^ 64, decide (x * y > maxUint64))

/-- blockGasLimit (src/core/evm.go lines 37-46): scale the upstream gas limit
by the multiplier, saturating to maxUint64 on overflow, then raise to the
configured minimum if below it. -/
def blockGasLimit (gasLimit0 : Nat) (config : ChainConfig) : Nat :=
  let p := SafeMul gasLimit0 config.BlockGasLimitMultiplier
  let gasLimit := if p.2 then maxUint64 else p.1
  if gasLimit < config.MinBlockGasLimit then config.MinBlockGasLimit else gasLimit

/-! ### Message translation (src/unnamed/part_000, src/core/types/tx.go) -/

/-- Blob transaction type tag (geth types.BlobTxType). -/
def BlobTxType : Nat := 3

/-- Embedded slice of a geth upstream transaction: the fields
TransactionToMessage reads. -/
structure EthTx where
  toAddr : Option Addr
  txType : Nat
  data : List Nat
  nonce : Nat
  gasPrice : Nat
  gasFeeCap : Nat
  gasTipCap : Nat
  deriving DecidableEq, Repr

/-- MiveTx (src/core/types/tx.go): the inner protocol transaction decoded
from the payload of an upstream transaction. -/
structure MiveTx where
  gas : Nat
  toAddr : Option Addr
  value : Nat
  data : List Nat
  accessList : List (Addr × List Nat)
  deriving DecidableEq, Repr

/-- Embedded geth core.Message: the fields TransactionToMessage sets. -/
structure Message where
  nonce : Nat
  gasLimit : Nat
  gasPrice : Nat
  gasFeeCap : Nat
  gasTipCap : Nat
  toAddr : Option Addr
  value : Nat
  data : List Nat
  accessList : List (Addr × List Nat)
  skipAccountChecks : Bool
  From : Addr
  deriving DecidableEq, Repr

/-- Message construction of TransactionToMessage (src/unnamed/part_000 lines
41-59), factored over the fee reduction denominator it is invoked with: the
fee fields are the upstream fees divided by the denominator, and when a base
fee is supplied the gas price becomes min(tipCap + baseFee/denom, feeCap).
The sender field is the zero address until recovery fills it in. -/
def buildMessage (tx : EthTx) (mtx : MiveTx) (baseFee : Option Nat)
    (feeReductionDenom : Nat) : Message :=
  let msg : Message :=
    { nonce := tx.nonce
      gasLimit := mtx.gas
      gasPrice := tx.gasPrice / feeReductionDenom
      gasFeeCap := tx.gasFeeCap / feeReductionDenom
      gasTipCap := tx.gasTipCap / feeReductionDenom
      toAddr := mtx.toAddr
      value := mtx.value
      data := mtx.data
      accessList := mtx.accessList
      skipAccountChecks := true
      From := 0 }
  match baseFee with
  | none => msg
  | some bf =>
      let reductedBaseFee := bf / feeReductionDenom
      { msg with gasPrice := min (msg.gasTipCap + reductedBaseFee) msg.gasFeeCap }

/-- TransactionToMessage (src/unnamed/part_000 lines 17-62). The result pair
mirrors the Go (msg, err) return: (none, none) for filtered or undecodable
transactions, (some msg, none) on success, and (some msg, some e) when
sender recovery fails (Go returns the built message alongside the error).
The RLP decoder for the inner transaction and the signature recoverer are
collaborator parameters. -/
def TransactionToMessage (decodeMiveTx : List Nat → Option MiveTx)
    (Sender : EthTx → Except String Addr)
    (tx : EthTx) (baseFee : Option Nat) (config : ChainConfig) :
    Option Message × Option String :=
  if tx.toAddr ≠ some config.mive.beaconAddress then (none, none)
  else if tx.txType = BlobTxType then (none, none)
  else if tx.data = [] then (none, none)
  else
    match decodeMiveTx tx.data with
    | none => (none, none)
    | some mtx =>
        let msg := buildMessage tx mtx baseFee config.FeeReductionDenominator
        match Sender tx with
        | .ok a => (some { msg with From := a }, none)
        | .error e => (some msg, some e)

/-! ### Upstream client readers (src/core/blockchain.go, blockchain_reader) -/

/-- Embedded slice of an upstream (Ethereum) block: the fields this
repository reads. -/
structure EthBlock where
  hash : Hash
  parentHash : Hash
  number : Nat
  time : Nat
  extraLen : Nat
  deriving DecidableEq, Repr

/-- Embedded slice of an upstream (Ethereum) header. -/
structure EthHeader where
  hash : Hash
  parentHash : Hash
  number : Nat
  time : Nat
  deriving DecidableEq, Repr

/-- BlockChain.GetBlock (src/core/blockchain.go lines 775-795): a block
cache hit for the hash short-circuits and returns the cached block with no
number check; on a miss, fetch the block by hash from the upstream client,
where a client failure or a number mismatch yields nil and a success is
cached keyed by the block's own hash. The client is a collaborator
parameter; the bounded LRU cache is modelled by its contents, returned
alongside the result. -/
def BlockChain.GetBlock (blockCache : List (Hash × EthBlock))
    (BlockByHash : Hash → Except String EthBlock)
    (hash : Hash) (number : Nat) : Option EthBlock × List (Hash × EthBlock) :=
  match blockCache.lookup hash with
  | some block => (some block, blockCache)
  | none =>
      match BlockByHash hash with
      | .error _ => (none, blockCache)
      | .ok block =>
          if block.number ≠ number then (none, blockCache)
          else (some block, (block.hash, block) :: blockCache)

/-- BlockChain.EthGetHeader (src/core/blockchain.go lines 682-693): fetch the
header by hash from the upstream client; a client failure or a number
mismatch yields nil. -/
def BlockChain.EthGetHeader (HeaderByHash : Hash → Except String EthHeader)
    (hash : Hash) (number : Nat) : Option EthHeader :=
  match HeaderByHash hash with
  | .error _ => none
  | .ok header => if header.number ≠ number then none else some header

/-! ### Field lemmas for the built message -/

/-- Fee cap of the built message, with or without a base fee. -/
theorem buildMessage_gasFeeCap (tx : EthTx) (mtx : MiveTx) (baseFee : Option Nat)
    (d : Nat) : (buildMessage tx mtx baseFee d).gasFeeCap = tx.gasFeeCap / d := by
  cases baseFee <;> rfl

/-- Tip cap of the built message, with or without a base fee. -/
theorem buildMessage_gasTipCap (tx : EthTx) (mtx : MiveTx) (baseFee : Option Nat)
    (d : Nat) : (buildMessage tx mtx baseFee d).gasTipCap = tx.gasTipCap / d := by
  cases baseFee <;> rfl

/-- Gas price of the built message: the reduced upstream gas price, or the
effective gas price min(tipCap + reducedBaseFee, feeCap) under a base fee. -/
theorem buildMessage_gasPrice (tx : EthTx) (mtx : MiveTx) (baseFee : Option Nat)
    (d : Nat) : (buildMessage tx mtx baseFee d).gasPrice =
      match baseFee with
      | none => tx.gasPrice / d
      | some bf => min (tx.gasTipCap / d + bf / d) (tx.gasFeeCap / d) := by
  cases baseFee <;> rfl

/-! ### Concrete fee-example inputs (denominator 20 example of the spec) -/

/-- Upstream transaction of the fee-reduction example: gasPrice 1000,
gasFeeCap 2000, gasTipCap 40. -/
def feeTx20 : EthTx :=
  { toAddr := some 12638, txType := 0, data := [1], nonce := 0,
    gasPrice := 1000, gasFeeCap := 2000, gasTipCap := 40 }

/-- Decoded inner transaction used by the fee-reduction example. -/
def feeMtx20 : MiveTx :=
  { gas := 21000, toAddr := some 7, value := 0, data := [], accessList := [] }

/-- C1: for every upstream transaction that passes the filter and whose
payload decodes, TransactionToMessage builds the message with
gasPrice = gasPrice/denom, feeCap = gasFeeCap/denom, tipCap = gasTipCap/denom
for denom = config.FeeReductionDenominator, and under a base fee the gas
price is min(tipCap + baseFee/denom, feeCap); instantiating the same message
construction at denominator 20 gives the spec's example values
1000 -> 50, 2000 -> 100, 40 -> 2, reduced base fee 200/20 = 10 and effective
gas price min(2+10, 100) = 12. -/
theorem c1_message_fee_reduction
    (decodeMiveTx : List Nat → Option MiveTx) (Sender : EthTx → Except String Addr)
    (tx : EthTx) (baseFee : Option Nat) (config : ChainConfig) (mtx : MiveTx)
    (hto : tx.toAddr = some config.mive.beaconAddress)
    (htype : tx.txType ≠ BlobTxType)
    (hdata : tx.data ≠ [])
    (hdec : decodeMiveTx tx.data = some mtx) :
    (∃ msg, (TransactionToMessage decodeMiveTx Sender tx baseFee config).1 = some msg
      ∧ msg.gasFeeCap = tx.gasFeeCap / config.FeeReductionDenominator
      ∧ msg.gasTipCap = tx.gasTipCap / config.FeeReductionDenominator
      ∧ msg.gasPrice =
          (match baseFee with
           | none => tx.gasPrice / config.FeeReductionDenominator
           | some bf =>
               min (tx.gasTipCap / config.FeeReductionDenominator
                   + bf / config.FeeReductionDenominator)
                 (tx.gasFeeCap / config.FeeReductionDenominator)))
    ∧ ((buildMessage feeTx20 feeMtx20 none 20).gasPrice = 50
      ∧ (buildMessage feeTx20 feeMtx20 none 20).gasFeeCap = 100
      ∧ (buildMessage feeTx20 feeMtx20 none 20).gasTipCap = 2
      ∧ 200 / 20 = 10
      ∧ (buildMessage feeTx20 feeMtx20 (some 200) 20).gasPrice = 12) := by
  refine ⟨?_, by decide, by decide, by decide, by decide, by decide⟩
  unfold TransactionToMessage
  rw [if_neg (by simp [hto]), if_neg htype, if_neg hdata, hdec]
  cases hS : Sender tx with
  | ok a =>
      exact ⟨_, rfl, buildMessage_gasFeeCap .., buildMessage_gasTipCap ..,
        buildMessage_gasPrice ..⟩
  | error e =>
      exact ⟨_, rfl, buildMessage_gasFeeCap .., buildMessage_gasTipCap ..,
        buildMessage_gasPrice ..⟩

/-- Decoder used by the C1 witness: always yields the example inner tx. -/
def c1decode : List Nat → Option MiveTx := fun _ => some feeMtx20

/-- Signature recoverer used by the C1 witness: always succeeds. -/
def c1sender : EthTx → Except String Addr := fun _ => .ok 9

/-- Witness for C1 at a concrete transaction: the translation succeeds and
reduces the gas price by the (default) denominator 50. -/
theorem c1_message_fee_reduction_witness :
    ∃ msg, (TransactionToMessage c1decode c1sender feeTx20 none mainnetConfig).1 = some msg
      ∧ msg.gasPrice = 1000 / 50 := by
  obtain ⟨⟨msg, h1, _, _, h4⟩, _⟩ :=
    c1_message_fee_reduction c1decode c1sender feeTx20 none mainnetConfig feeMtx20
      rfl (by decide) (by decide) rfl
  exact ⟨msg, h1, by simpa using h4⟩

/-- C2 (amended): the block gas limit transform is exactly
max(minLimit, min(upstream * multiplier, maxUint64)); with the default
multiplier 100 and minimum 30,000,000, an upstream limit of 30,000,000 yields
3,000,000,000, an overflowing product saturates to maxUint64, and a scaled
value below the minimum is raised to exactly 30,000,000. -/
theorem c2_block_gas_limit (g : Nat) (config : ChainConfig) :
    blockGasLimit g config
      = max config.MinBlockGasLimit (min (g * config.BlockGasLimitMultiplier) maxUint64)
    ∧ blockGasLimit 30000000 config = 3000000000
    ∧ blockGasLimit 299999 config = 30000000
    ∧ blockGasLimit (2 ^ 60) config = maxUint64 := by
  have key : ∀ n : Nat, blockGasLimit n config
      = max config.MinBlockGasLimit (min (n * config.BlockGasLimitMultiplier) maxUint64) := by
    intro n
    unfold blockGasLimit SafeMul
    simp only [ChainConfig.MinBlockGasLimit, ChainConfig.BlockGasLimitMultiplier,
      DefaultMinBlockGasLimit, DefaultBlockGasLimitMultiplier, maxUint64,
      decide_eq_true_eq]
    have hm : 2 ^ 64 - 1 < n * 100 ∨ n * 100 % 2 ^ 64 = n * 100 := by
      by_cases hov : 2 ^ 64 - 1 < n * 100
      · exact Or.inl hov
      · exact Or.inr (Nat.mod_eq_of_lt (by omega))
    split_ifs with h1 h2 h3 <;> omega
  have hconst : config.MinBlockGasLimit = 30000000 ∧ config.BlockGasLimitMultiplier = 100 :=
    ⟨rfl, rfl⟩
  refine ⟨key g, ?_, ?_, ?_⟩ <;>
    rw [key, hconst.1, hconst.2] <;> decide

/-- Counterexample for C2 as stated: with the default multiplier 100 and
minimum 30,000,000, an upstream gas limit of 30,000,000 scales to
3,000,000,000, not the 3,000,000,000,000 the claim asserts. -/
theorem c2_block_gas_limit_counterexample :
    blockGasLimit 30000000 mainnetConfig = 3000000000
    ∧ blockGasLimit 30000000 mainnetConfig ≠ 3000000000000 := by
  constructor <;> decide

/-- C3: the translator returns none (nil message, nil error) for a recipient
other than the beacon address, for the blob transaction type, for an empty
payload, and for a payload that fails to decode; it returns an error exactly
when the filter and decode succeed but sender recovery over the original
upstream transaction fails. -/
theorem c3_translator_skip_and_error
    (decodeMiveTx : List Nat → Option MiveTx) (Sender : EthTx → Except String Addr)
    (tx : EthTx) (baseFee : Option Nat) (config : ChainConfig) :
    (tx.toAddr ≠ some config.mive.beaconAddress →
      TransactionToMessage decodeMiveTx Sender tx baseFee config = (none, none))
    ∧ (tx.txType = BlobTxType →
      TransactionToMessage decodeMiveTx Sender tx baseFee config = (none, none))
    ∧ (tx.data = [] →
      TransactionToMessage decodeMiveTx Sender tx baseFee config = (none, none))
    ∧ (decodeMiveTx tx.data = none →
      TransactionToMessage decodeMiveTx Sender tx baseFee config = (none, none))
    ∧ ((TransactionToMessage decodeMiveTx Sender tx baseFee config).2.isSome ↔
      (tx.toAddr = some config.mive.beaconAddress ∧ tx.txType ≠ BlobTxType
        ∧ tx.data ≠ [] ∧ (decodeMiveTx tx.data).isSome
        ∧ ∃ e, Sender tx = .error e)) := by
  unfold TransactionToMessage
  by_cases h1 : tx.toAddr = some config.mive.beaconAddress
  · rw [if_neg (by simp [h1])]
    by_cases h2 : tx.txType = BlobTxType
    · simp [h1, h2]
    · rw [if_neg h2]
      by_cases h3 : tx.data = []
      · simp [h1, h2, h3]
      · rw [if_neg h3]
        cases hd : decodeMiveTx tx.data with
        | none => simp [h1, h2, h3, hd]
        | some mtx =>
            cases hS : Sender tx with
            | ok a => simp [h1, h2, h3, hd, hS]
            | error e => simp [h1, h2, h3, hd, hS]
  · rw [if_pos (by simp [h1])]
    simp [h1]

/-- Transaction used by the C3 witness: sent to a non-beacon recipient. -/
def c3txOther : EthTx :=
  { toAddr := some 42, txType := 0, data := [1], nonce := 0,
    gasPrice := 0, gasFeeCap := 0, gasTipCap := 0 }

/-- Signature recoverer used by the C3 witness: always fails. -/
def c3senderFail : EthTx → Except String Addr := fun _ => .error "bad sig"

/-- Witness for C3 at concrete inputs: a non-beacon transaction is skipped
with no error, and a beacon transaction whose sender recovery fails yields
an error. -/
theorem c3_translator_skip_and_error_witness :
    TransactionToMessage c1decode c3senderFail c3txOther none mainnetConfig = (none, none)
    ∧ (TransactionToMessage c1decode c3senderFail feeTx20 none mainnetConfig).2.isSome := by
  constructor
  · exact (c3_translator_skip_and_error c1decode c3senderFail c3txOther none
      mainnetConfig).1 (by decide)
  · exact (c3_translator_skip_and_error c1decode c3senderFail feeTx20 none
      mainnetConfig).2.2.2.2.mpr ⟨rfl, by decide, by decide, by decide, "bad sig", rfl⟩

/-- C10 (amended): EthGetHeader returns nil when the client fails or when
the returned header's number differs from the requested one, so a
successful header result always carries the requested number; GetBlock
applies the same number check only on the cache-miss path, while a block
cache hit returns the cached block for the hash with no number check, so a
successful block result can carry a number other than the requested one. -/
theorem c10_reader_number_consistency
    (blockCache : List (Hash × EthBlock))
    (BlockByHash : Hash → Except String EthBlock)
    (HeaderByHash : Hash → Except String EthHeader)
    (hash : Hash) (number : Nat) :
    (blockCache.lookup hash = none →
      ∀ b, (BlockChain.GetBlock blockCache BlockByHash hash number).1 = some b →
        b.number = number)
    ∧ (∀ b, blockCache.lookup hash = some b →
        (BlockChain.GetBlock blockCache BlockByHash hash number).1 = some b)
    ∧ (∀ h, BlockChain.EthGetHeader HeaderByHash hash number = some h →
        h.number = number) := by
  refine ⟨?_, ?_, ?_⟩
  · intro hmiss b hb
    unfold BlockChain.GetBlock at hb
    rw [hmiss] at hb
    cases hc : BlockByHash hash with
    | error e => rw [hc] at hb; simp at hb
    | ok blk =>
        rw [hc] at hb
        by_cases hn : blk.number = number
        · simp [hn] at hb
          rw [← hb]
          exact hn
        · simp [hn] at hb
  · intro b hhit
    unfold BlockChain.GetBlock
    rw [hhit]
  · intro h hh
    unfold BlockChain.EthGetHeader at hh
    cases hc : HeaderByHash hash with
    | error e => rw [hc] at hh; simp at hh
    | ok hd =>
        rw [hc] at hh
        by_cases hn : hd.number = number
        · simp [hn] at hh
          subst hh
          exact hn
        · simp [hn] at hh

/-- Upstream block client used by the C10 scenarios: every hash resolves to
a block at number 5. -/
def c10blockClient : Hash → Except String EthBlock :=
  fun h => .ok { hash := h, parentHash := 0, number := 5, time := 0, extraLen := 0 }

/-- Upstream header client used by the C10 witness. -/
def c10headerClient : Hash → Except String EthHeader :=
  fun h => .ok { hash := h, parentHash := 0, number := 5, time := 0 }

/-- Counterexample for C10 as stated: fetching hash 2 at its number 5
populates the block cache; a second request for hash 2 with number 6 hits
the cache and succeeds with the cached block of number 5, not the requested
6 - the cache-hit path of GetBlock performs no number check. -/
theorem c10_reader_number_counterexample :
    ((BlockChain.GetBlock [] c10blockClient 2 5).1.map (·.number) = some 5)
    ∧ ((BlockChain.GetBlock (BlockChain.GetBlock [] c10blockClient 2 5).2
        c10blockClient 2 6).1.map (·.number) = some 5)
    ∧ (5 : Nat) ≠ 6 := by
  refine ⟨by decide, by decide, by decide⟩

/-- Block at number 5 used by the C10 cache scenarios. -/
def c10cachedBlock : EthBlock :=
  { hash := 2, parentHash := 0, number := 5, time := 0, extraLen := 0 }

/-- Witness for C10 (amended) at concrete inputs: on an empty cache the
number check holds in both readers, and a cache hit returns the cached
block. -/
theorem c10_reader_number_consistency_witness :
    ((BlockChain.GetBlock [] c10blockClient 2 5).1.map (·.number) = some 5)
    ∧ (BlockChain.GetBlock [] c10blockClient 2 6).1 = none
    ∧ BlockChain.EthGetHeader c10headerClient 2 6 = none
    ∧ (BlockChain.GetBlock [(2, c10cachedBlock)] c10blockClient 2 6).1
      = some c10cachedBlock := by
  refine ⟨?_, by decide, by decide, ?_⟩
  · have h := (c10_reader_number_consistency [] c10blockClient c10headerClient 2 5).1
      (by decide) c10cachedBlock (by decide)
    simp [show (BlockChain.GetBlock [] c10blockClient 2 5).1
        = some c10cachedBlock from by decide, h]
  · exact (c10_reader_number_consistency [(2, c10cachedBlock)]
      c10blockClient c10headerClient 2 6).2.1 c10cachedBlock (by decide)

/-! ### Header chain data model (src/core/genesis.go, HeaderChain part) -/

/-- Header (mive block header, src/core/rawdb/accessors_chain.go lines
74-84): parent hash, self-identifying hash, number, time, state root,
receipts root, logs bloom and gas used. -/
structure Header where
  parentHash : Hash
  hash : Hash
  number : Nat
  time : Nat
  root : Hash
  receiptHash : Hash
  bloom : Nat
  gasUsed : Nat
  deriving DecidableEq, Repr

instance : Inhabited Header := ⟨⟨0, 0, 0, 0, 0, 0, 0, 0⟩⟩

/-- Persistent store slice owned by the header chain: stored headers (which
also carry the hash-to-number mapping maintained alongside every header
write), the canonical number-to-hash relation, and the head markers. The
canonical relation is an association list whose first binding for a key
wins; a binding to the zero hash is how a deletion is observed, exactly as
a zero common.Hash denotes an absent canonical entry in the source. -/
structure ChainDB where
  headers : List Header
  canonical : List (Nat × Hash)
  headHeaderHash : Hash
  headBlockHash : Hash
  headFastBlockHash : Hash
  finalizedBlockHash : Hash
  deriving DecidableEq, Repr

/-- ReadHeader (src/core/rawdb/accessors_chain.go lines 14-25): look up the
stored header with the given hash and number. -/
def readHeader (db : ChainDB) (hash : Hash) (number : Nat) : Option Header :=
  db.headers.find? (fun h => h.hash = hash && h.number = number)

/-- ReadCanonicalHash: the canonical hash at a number, zero when absent. -/
def readCanonicalHash (db : ChainDB) (number : Nat) : Hash :=
  (db.canonical.lookup number).getD 0

/-- ReadHeaderNumber: the number recorded for a hash, derived from the
stored headers (WriteHeader maintains both keys together). -/
def readHeaderNumber (db : ChainDB) (hash : Hash) : Option Nat :=
  (db.headers.find? (fun h => h.hash = hash)).map (·.number)

/-- HeaderChain: the store plus the in-memory current-head marker
(src/core/genesis.go lines 301-315; caches omitted). -/
structure HeaderChain where
  db : ChainDB
  currentHeader : Header
  deriving DecidableEq, Repr

/-- HeaderChain.GetHeader (src/core/genesis.go lines 632-644), without the
cache layer: the store is authoritative. -/
def HeaderChain.GetHeader (hc : HeaderChain) (hash : Hash) (number : Nat) :
    Option Header :=
  readHeader hc.db hash number

/-! ### GetAncestor (src/core/genesis.go lines 596-628) -/

/-- Loop body of GetAncestor for ancestor distances of two or more: resolve
through the canonical mapping when the cursor is canonical, otherwise walk
one parent link, spending the non-canonical budget; a missing header or an
exhausted budget gives the zero result. Structural recursion on the
remaining ancestor distance, which the source decrements on every
iteration. The source re-reads the canonical hash a second time before
returning; over a pure store the re-read equals the first read, so the two
checks collapse into one. -/
def getAncestorLoop (hc : HeaderChain) : Hash → Nat → Nat → Nat → Hash × Nat
  | hash, number, 0, _ => (hash, number)
  | hash, number, ancestor + 1, budget =>
      if readCanonicalHash hc.db number = hash then
        (readCanonicalHash hc.db (number - (ancestor + 1)), number - (ancestor + 1))
      else if budget = 0 then (0, 0)
      else
        match readHeader hc.db hash number with
        | none => (0, 0)
        | some header =>
            getAncestorLoop hc header.parentHash (number - 1) ancestor (budget - 1)

/-- GetAncestor (src/core/genesis.go lines 596-628): the hash and number of
the ancestor the given distance back; distance 0 is the block itself and
distance 1 reads the stored header's parent directly. A distance exceeding
the number gives the zero result. -/
def HeaderChain.GetAncestor (hc : HeaderChain) (hash : Hash)
    (number ancestor budget : Nat) : Hash × Nat :=
  if ancestor > number then (0, 0)
  else if ancestor = 1 then
    match hc.GetHeader hash number with
    | some header => (header.parentHash, number - 1)
    | none => (0, 0)
  else
    getAncestorLoop hc hash number ancestor budget

/-! ### ValidateHeaderChain (src/core/genesis.go lines 513-553) -/

/-- Validation outcome of ValidateHeaderChain. The non-contiguity error
carries the indices i-1 and i the source formats into its error message. -/
inductive ValErr where
  | nonContiguous (prevIndex index : Nat)
  | bannedHash
  | engineFailure (msg : String)
  | aborted
  deriving DecidableEq, Repr

/-- Sanity pass of ValidateHeaderChain (src/core/genesis.go lines 515-534):
walk adjacent header pairs checking strict number contiguity and the banned
hash set; the result pairs the returned count with the error, mirroring the
Go (int, error) return, so a non-contiguous pair at position i yields
(0, nonContiguous (i-1) i) and a banned parent yields (i-1, bannedHash). -/
def sanityCheck (badHashes : List Hash) : Header → List Header → Nat →
    Option (Nat × ValErr)
  | _, [], _ => none
  | prev, cur :: rest, i =>
      if cur.number ≠ prev.number + 1 then some (0, .nonContiguous (i - 1) i)
      else if cur.parentHash ∈ badHashes then some (i - 1, .bannedHash)
      else if rest = [] ∧ cur.hash ∈ badHashes then some (i, .bannedHash)
      else sanityCheck badHashes cur rest (i + 1)

/-- Consensus-verifier pass of ValidateHeaderChain (src/core/genesis.go lines
536-550): consume the ordered result stream, aborting on an interrupt and
returning the first failing index. The per-index verdicts of the engine are
a collaborator parameter. -/
def engineCheck (interrupted : Bool) (verdicts : Nat → Option String) :
    List Nat → Option (Nat × ValErr)
  | [] => none
  | i :: rest =>
      if interrupted then some (0, .aborted)
      else
        match verdicts i with
        | some e => some (i, .engineFailure e)
        | none => engineCheck interrupted verdicts rest

/-- ValidateHeaderChain (src/core/genesis.go lines 513-553): the sanity pass
over adjacent pairs followed by the concurrent consensus verification; the
function reads the chain and never writes to the store (the Go body takes no
writer and performs no Put or Delete). -/
def ValidateHeaderChain (badHashes : List Hash) (interrupted : Bool)
    (verdicts : Nat → Option String) (chain : List Header) : Nat × Option ValErr :=
  let sanity :=
    match chain with
    | [] => none
    | c :: rest => sanityCheck badHashes c rest 1
  match sanity with
  | some (n, e) => (n, some e)
  | none =>
      match engineCheck interrupted verdicts (List.range chain.length) with
      | some (n, e) => (n, some e)
      | none => (0, none)

/-! ### C8: ancestor identity -/

/-- C8 (amended): for a stored header with hash h at number n, GetAncestor
with distance 0 returns (h, n) for any budget, and with distance 1 and
n at least 1 it returns (parentHash, n-1); at n = 0 a distance of 1 falls
into the distance-exceeds-number guard and yields the zero result instead. -/
theorem c8_get_ancestor (hc : HeaderChain) (h : Hash) (n b : Nat) (hdr : Header)
    (hstored : readHeader hc.db h n = some hdr) :
    hc.GetAncestor h n 0 b = (h, n)
    ∧ (1 ≤ n → hc.GetAncestor h n 1 b = (hdr.parentHash, n - 1)) := by
  constructor
  · unfold HeaderChain.GetAncestor
    rw [if_neg (by omega), if_neg (by omega)]
    rfl
  · intro hn
    unfold HeaderChain.GetAncestor
    rw [if_neg (by omega), if_pos rfl]
    unfold HeaderChain.GetHeader
    rw [hstored]

/-- Stored header of the C8 witness chain at number 2. -/
def c8hdr2 : Header := ⟨5, 7, 2, 0, 0, 0, 0, 0⟩

/-- Header chain of the C8 witness: headers 5 at number 1 and 7 at number 2,
both canonical. -/
def c8hcW : HeaderChain :=
  { db := { headers := [c8hdr2, ⟨1, 5, 1, 0, 0, 0, 0, 0⟩],
            canonical := [(1, 5), (2, 7)],
            headHeaderHash := 7, headBlockHash := 7,
            headFastBlockHash := 7, finalizedBlockHash := 0 },
    currentHeader := c8hdr2 }

/-- Witness for C8 at a concrete chain: distance 0 is the identity and
distance 1 yields the parent. -/
theorem c8_get_ancestor_witness :
    c8hcW.GetAncestor 7 2 0 4 = (7, 2) ∧ c8hcW.GetAncestor 7 2 1 4 = (5, 1) := by
  have h := c8_get_ancestor c8hcW 7 2 4 c8hdr2 (by decide)
  exact ⟨h.1, h.2 (by omega)⟩

/-- Header stored at number 0 for the C8 counterexample. -/
def c8hdr0 : Header := ⟨5, 7, 0, 0, 0, 0, 0, 0⟩

/-- Header chain of the C8 counterexample: one stored header, hash 7 at
number 0, whose parent hash is 5. -/
def c8hc0 : HeaderChain :=
  { db := { headers := [c8hdr0], canonical := [(0, 7)],
            headHeaderHash := 7, headBlockHash := 7,
            headFastBlockHash := 7, finalizedBlockHash := 0 },
    currentHeader := c8hdr0 }

/-- Counterexample for C8 as stated: for the stored header with hash 7 at
number 0 and parent hash 5, GetAncestor at distance 1 returns the zero hash
(the distance-exceeds-number guard), not the parent hash the claim demands
for every stored header. -/
theorem c8_get_ancestor_counterexample :
    readHeader c8hc0.db 7 0 = some c8hdr0
    ∧ c8hdr0.parentHash = 5
    ∧ (c8hc0.GetAncestor 7 0 1 3).1 = 0
    ∧ (c8hc0.GetAncestor 7 0 1 3).1 ≠ c8hdr0.parentHash := by
  refine ⟨by decide, by decide, by decide, by decide⟩

/-! ### C6: contiguity validation -/

/-- Header of a batch at an index, defaulting outside the batch. -/
def hdrAt (chain : List Header) (j : Nat) : Header := chain.getD j default

/-- Equation of ValidateHeaderChain on a nonempty batch. -/
theorem validate_cons (badHashes : List Hash) (interrupted : Bool)
    (verdicts : Nat → Option String) (c : Header) (rest : List Header) :
    ValidateHeaderChain badHashes interrupted verdicts (c :: rest)
      = match sanityCheck badHashes c rest 1 with
        | some (n, e) => (n, some e)
        | none =>
            match engineCheck interrupted verdicts (List.range (c :: rest).length) with
            | some (n, e) => (n, some e)
            | none => (0, none) := rfl

/-- First-violation behaviour of the sanity pass, stated over the combined
list prev :: rest: if the adjacent pair at positions k, k+1 breaks
contiguity and every earlier pair is contiguous with an unbanned parent,
the pass stops there and reports the absolute indices i0+k-1 and i0+k with
count 0. -/
theorem sanityCheck_first_violation (badHashes : List Hash) :
    ∀ (rest : List Header) (prev : Header) (i0 k : Nat),
      k < rest.length →
      ((prev :: rest).getD (k+1) default).number
        ≠ ((prev :: rest).getD k default).number + 1 →
      (∀ j, j < k →
        ((prev :: rest).getD (j+1) default).number
          = ((prev :: rest).getD j default).number + 1
        ∧ ((prev :: rest).getD (j+1) default).parentHash ∉ badHashes) →
      sanityCheck badHashes prev rest i0
        = some (0, .nonContiguous (i0 + k - 1) (i0 + k)) := by
  intro rest
  induction rest with
  | nil => intro prev i0 k hk; simp at hk
  | cons cur rest2 ih =>
      intro prev i0 k hk hviol hgood
      cases k with
      | zero =>
          simp only [List.getD_cons_succ, List.getD_cons_zero] at hviol
          unfold sanityCheck
          rw [if_pos hviol]
          simp
      | succ k2 =>
          have h0 := hgood 0 (Nat.succ_pos k2)
          simp only [List.getD_cons_succ, List.getD_cons_zero] at h0
          unfold sanityCheck
          rw [if_neg (by simpa using h0.1), if_neg h0.2,
            if_neg (by
              rintro ⟨hnil, -⟩
              rw [hnil] at hk
              simp at hk)]
          have hrec := ih cur (i0 + 1) k2 (by simpa using hk)
            (by simpa only [List.getD_cons_succ] using hviol)
            (by
              intro j hj
              have hgj := hgood (j + 1) (by omega)
              simpa only [List.getD_cons_succ] using hgj)
          rw [hrec]
          have e1 : i0 + 1 + k2 - 1 = i0 + (k2 + 1) - 1 := by omega
          have e2 : i0 + 1 + k2 = i0 + (k2 + 1) := by omega
          rw [e1, e2]

/-- Acceptance of the sanity pass implies contiguity of every adjacent pair
of the combined list prev :: rest. -/
theorem sanityCheck_none_contiguous (badHashes : List Hash) :
    ∀ (rest : List Header) (prev : Header) (i0 : Nat),
      sanityCheck badHashes prev rest i0 = none →
      ∀ k, k < rest.length →
        ((prev :: rest).getD (k+1) default).number
          = ((prev :: rest).getD k default).number + 1 := by
  intro rest
  induction rest with
  | nil => intro prev i0 _ k hk; simp at hk
  | cons cur rest2 ih =>
      intro prev i0 hnone k hk
      unfold sanityCheck at hnone
      by_cases h1 : cur.number ≠ prev.number + 1
      · rw [if_pos h1] at hnone; cases hnone
      · rw [if_neg h1] at hnone
        by_cases h2 : cur.parentHash ∈ badHashes
        · rw [if_pos h2] at hnone; cases hnone
        · rw [if_neg h2] at hnone
          by_cases h3 : rest2 = [] ∧ cur.hash ∈ badHashes
          · rw [if_pos h3] at hnone; cases hnone
          · rw [if_neg h3] at hnone
            cases k with
            | zero =>
                simp only [List.getD_cons_succ, List.getD_cons_zero]
                omega
            | succ k2 =>
                have := ih cur (i0 + 1) hnone k2 (by simpa using hk)
                simpa only [List.getD_cons_succ] using this

/-- C6: ValidateHeaderChain accepts a batch only if every adjacent pair is
strictly contiguous; a batch whose first violation is at position i (all
earlier pairs contiguous, no earlier banned parent) is rejected there with
the pair of indices i-1 and i reported in the error and 0 as the returned
count, exactly as the source formats them; the function performs no store
writes (its embedding takes no store and returns only the verdict). -/
theorem c6_validate_contiguity
    (badHashes : List Hash) (interrupted : Bool) (verdicts : Nat → Option String)
    (chain : List Header) :
    (∀ i, 1 ≤ i → i < chain.length →
      (hdrAt chain i).number ≠ (hdrAt chain (i-1)).number + 1 →
      (∀ j, 1 ≤ j → j < i →
        (hdrAt chain j).number = (hdrAt chain (j-1)).number + 1
        ∧ (hdrAt chain j).parentHash ∉ badHashes) →
      ValidateHeaderChain badHashes interrupted verdicts chain
        = (0, some (.nonContiguous (i-1) i)))
    ∧ (∀ r, ValidateHeaderChain badHashes interrupted verdicts chain = (r, none) →
        ∀ i, 1 ≤ i → i < chain.length →
          (hdrAt chain i).number = (hdrAt chain (i-1)).number + 1) := by
  constructor
  · intro i hi1 hilen hviol hgood
    obtain ⟨c, rest, rfl⟩ : ∃ x xs, chain = x :: xs := by
      cases chain with
      | nil => simp at hilen
      | cons x xs => exact ⟨x, xs, rfl⟩
    simp only [hdrAt] at hviol hgood
    have e0 : i - 1 + 1 = i := by omega
    have hfv := sanityCheck_first_violation badHashes rest c 1 (i - 1)
      (by simp only [List.length_cons] at hilen; omega)
      (by rw [e0]; exact hviol)
      (by
        intro j hj
        have := hgood (j + 1) (by omega) (by omega)
        simpa using this)
    rw [validate_cons, hfv]
    have e1 : 1 + (i - 1) - 1 = i - 1 := by omega
    have e2 : 1 + (i - 1) = i := by omega
    rw [e1, e2]
  · intro r hacc i hi1 hilen
    obtain ⟨c, rest, rfl⟩ : ∃ x xs, chain = x :: xs := by
      cases chain with
      | nil => simp at hilen
      | cons x xs => exact ⟨x, xs, rfl⟩
    rw [validate_cons] at hacc
    cases hs : sanityCheck badHashes c rest 1 with
    | some v =>
        rw [hs] at hacc
        obtain ⟨n, e⟩ := v
        simp at hacc
    | none =>
        have hcont := sanityCheck_none_contiguous badHashes rest c 1 hs (i - 1)
          (by simp only [List.length_cons] at hilen; omega)
        have e0 : i - 1 + 1 = i := by omega
        rw [e0] at hcont
        simpa [hdrAt] using hcont

/-- Batch of the C6 witness: numbers 10, 11, 13 with a contiguity violation
at position 2. -/
def c6chain : List Header :=
  [⟨0, 21, 10, 0, 0, 0, 0, 0⟩, ⟨21, 22, 11, 0, 0, 0, 0, 0⟩, ⟨22, 23, 13, 0, 0, 0, 0, 0⟩]

/-- Witness for C6 at a concrete batch: the violation between positions 1
and 2 is reported as (0, nonContiguous 1 2). -/
theorem c6_validate_contiguity_witness :
    ValidateHeaderChain [] false (fun _ => none) c6chain
      = (0, some (.nonContiguous 1 2)) := by
  refine (c6_validate_contiguity [] false (fun _ => none) c6chain).1 2
    (by omega) (by decide) (by decide) ?_
  intro j hj1 hj2
  match j, hj1, hj2 with
  | 1, _, _ => exact ⟨by decide, by decide⟩

/-! ### Reorg (src/core/genesis.go lines 372-429) -/

/-- Write operation recorded into the batch a Reorg builds: canonical-entry
deletion, canonical-entry write, and head-header-hash write. -/
inductive WriteOp where
  | deleteCanonical (number : Nat)
  | writeCanonical (hash : Hash) (number : Nat)
  | writeHeadHeaderHash (hash : Hash)
  deriving DecidableEq, Repr

/-- Application of one batched write to the store. A deletion binds the
number to the zero hash, which is observationally the deletion of the key:
reads of an absent canonical entry yield the zero hash. -/
def applyOp (db : ChainDB) : WriteOp → ChainDB
  | .deleteCanonical n => { db with canonical := (n, 0) :: db.canonical }
  | .writeCanonical h n => { db with canonical := (n, h) :: db.canonical }
  | .writeHeadHeaderHash h => { db with headHeaderHash := h }

/-- Atomic commit of a batch: all recorded writes applied in order. -/
def applyBatch (db : ChainDB) (ops : List WriteOp) : ChainDB :=
  ops.foldl applyOp db

/-- Largest key bound of the canonical relation, used to size the fuel of
the unbounded deletion loop: above this key every read yields zero. -/
def maxCanonKey (db : ChainDB) : Nat :=
  db.canonical.foldr (fun p m => max p.1 m) 0

/-- Deletion loop of Reorg (src/core/genesis.go lines 388-394): delete
canonical assignments upward from the start index until the first absent
entry. The loop is unbounded in the source and terminates because the
canonical relation is finite; the fuel passed by Reorg exceeds the largest
populated key, beyond which every read is zero, so the fuel branch is
unreachable. -/
def deleteCanonicalAbove (db : ChainDB) : Nat → Nat → List WriteOp
  | _, 0 => []
  | i, fuel + 1 =>
      if readCanonicalHash db i = 0 then []
      else .deleteCanonical i :: deleteCanonicalAbove db (i + 1) fuel

/-- Backward walk of Reorg (src/core/genesis.go lines 398-413): overwrite
stale canonical assignments going backwards from the first imported header
until the canonical entry already matches (the fork point), failing on a
missing parent. Each iteration moves to the parent one number down; the
fuel passed by Reorg is the starting number plus two, so the fuel branch is
unreachable (the walk breaks at number zero). -/
def rewindCanonical (db : ChainDB) : Nat → Hash → Nat → Header →
    Except String (List WriteOp)
  | 0, _, _, _ => .error "fuel exhausted"
  | fuel + 1, headHash, headNumber, header =>
      if readCanonicalHash db headNumber = headHash then .ok []
      else
        let op := WriteOp.writeCanonical headHash headNumber
        if headNumber = 0 then .ok [op]
        else
          match readHeader db header.parentHash (header.number - 1) with
          | none => .error "missing parent"
          | some header2 =>
              (rewindCanonical db fuel header.parentHash (header.number - 1) header2).map
                (fun ops => op :: ops)

/-- Forward extension of Reorg (src/core/genesis.go lines 416-421): write
the canonical assignment and the head-header-hash marker for every imported
header, in order. -/
def fwdOps (headers : List Header) : List WriteOp :=
  headers.flatMap (fun h => [.writeCanonical h.hash h.number, .writeHeadHeaderHash h.hash])

/-- Reorg (src/core/genesis.go lines 372-429): an empty batch is a no-op;
otherwise, when the first header does not extend the current head, delete
canonical entries above the new tail and rewrite stale entries backwards to
the fork point; then extend the canonical mapping with every new header.
All reads go to the unmodified store and every mutation is recorded in one
batch, applied atomically at the end; the commitOk flag models the store's
batch-commit outcome: a failed commit applies nothing and surfaces the
error, after which the in-memory current header is also left unchanged. -/
def Reorg (commitOk : Bool) (hc : HeaderChain) (headers : List Header) :
    Except String HeaderChain :=
  match headers with
  | [] => .ok hc
  | first :: rest =>
      let lastH := (first :: rest).getLastD first
      let db := hc.db
      let preOps :=
        if first.parentHash ≠ hc.currentHeader.hash then
          (rewindCanonical db (first.number + 2) first.hash first.number first).map
            (fun backOps => deleteCanonicalAbove db (lastH.number + 1) (maxCanonKey db + 2) ++ backOps)
        else Except.ok []
      match preOps with
      | .error e => .error e
      | .ok pre =>
          if commitOk then
            .ok { db := applyBatch db (pre ++ fwdOps (first :: rest)),
                  currentHeader := lastH }
          else .error "batch write failed"

/-- Parent-linkage with strict number contiguity of a header batch against a
given predecessor. -/
def linkedFromB (prev : Header) : List Header → Bool
  | [] => true
  | h :: t =>
      decide (h.parentHash = prev.hash) && decide (h.number = prev.number + 1)
        && linkedFromB h t

/-- Internal parent-linkage of a header batch. -/
def chainLinkedB : List Header → Bool
  | [] => true
  | h :: t => linkedFromB h t

/-- Canonical-mapping key touched by a batched write, if any. -/
def opCanonKey : WriteOp → Option Nat
  | .deleteCanonical n => some n
  | .writeCanonical _ n => some n
  | .writeHeadHeaderHash _ => none

/-- Reads of a canonical key are unchanged by a write touching another key. -/
theorem readCanonicalHash_applyOp_ne (db : ChainDB) (op : WriteOp) (n : Nat)
    (h : opCanonKey op ≠ some n) :
    readCanonicalHash (applyOp db op) n = readCanonicalHash db n := by
  cases op with
  | deleteCanonical m =>
      have hm : ¬ (n = m) := fun e => h (by simp [opCanonKey, e])
      have hb : (n == m) = false := by simp [hm]
      simp [applyOp, readCanonicalHash, List.lookup, hb]
  | writeCanonical hh m =>
      have hm : ¬ (n = m) := fun e => h (by simp [opCanonKey, e])
      have hb : (n == m) = false := by simp [hm]
      simp [applyOp, readCanonicalHash, List.lookup, hb]
  | writeHeadHeaderHash hh => rfl

/-- Reads of a canonical key are unchanged by a batch touching no write to
that key. -/
theorem readCanonicalHash_applyBatch_untouched :
    ∀ (ops : List WriteOp) (db : ChainDB) (n : Nat),
      (∀ op ∈ ops, opCanonKey op ≠ some n) →
      readCanonicalHash (applyBatch db ops) n = readCanonicalHash db n := by
  intro ops
  induction ops with
  | nil => intro db n _; rfl
  | cons op rest ih =>
      intro db n h
      have step : applyBatch db (op :: rest) = applyBatch (applyOp db op) rest := rfl
      rw [step, ih _ n (fun o ho => h o (List.mem_cons_of_mem _ ho)),
        readCanonicalHash_applyOp_ne _ _ _ (h op (List.mem_cons_self _ _))]

/-- Every key touched by the forward extension of a batch is the number of
some header of the batch. -/
theorem fwdOps_keys (t : List Header) :
    ∀ op ∈ fwdOps t, opCanonKey op = none ∨ ∃ x ∈ t, opCanonKey op = some x.number := by
  intro op hop
  unfold fwdOps at hop
  rw [List.mem_flatMap] at hop
  obtain ⟨x, hx, hop⟩ := hop
  simp only [List.mem_cons, List.mem_singleton, List.not_mem_nil, or_false] at hop
  rcases hop with h | h <;> subst h
  · exact Or.inr ⟨x, hx, rfl⟩
  · exact Or.inl rfl

/-- Every header parent-linked after a predecessor has a strictly larger
number. -/
theorem linkedFromB_gt :
    ∀ (t : List Header) (prev : Header), linkedFromB prev t = true →
      ∀ x ∈ t, prev.number < x.number := by
  intro t
  induction t with
  | nil => intro prev _ x hx; cases hx
  | cons h t2 ih =>
      intro prev hl x hx
      simp only [linkedFromB, Bool.and_eq_true, decide_eq_true_eq] at hl
      obtain ⟨⟨hp, hn⟩, hrest⟩ := hl
      cases hx with
      | head => omega
      | tail _ hx2 =>
          have := ih h hrest x hx2
          omega

/-- Numbers along a parent-linked batch ascend one by one from the
predecessor. -/
theorem linkedFromB_getD_number :
    ∀ (t : List Header) (prev : Header), linkedFromB prev t = true →
      ∀ j, j < t.length → (t.getD j default).number = prev.number + j + 1 := by
  intro t
  induction t with
  | nil => intro prev _ j hj; simp at hj
  | cons h t2 ih =>
      intro prev hl j hj
      simp only [linkedFromB, Bool.and_eq_true, decide_eq_true_eq] at hl
      obtain ⟨⟨hp, hn⟩, hrest⟩ := hl
      cases j with
      | zero => simpa using hn
      | succ j2 =>
          have := ih h hrest j2 (by simpa using hj)
          simp only [List.getD_cons_succ]
          omega

/-- After applying the forward extension of a parent-linked batch, the
canonical entry at every batch number is that header's hash, whatever the
store looked like before. -/
theorem readCanonicalHash_fwdOps :
    ∀ (hs : List Header) (db0 : ChainDB) (j : Nat),
      chainLinkedB hs = true → j < hs.length →
      readCanonicalHash (applyBatch db0 (fwdOps hs)) ((hs.getD j default).number)
        = (hs.getD j default).hash := by
  intro hs
  induction hs with
  | nil => intro db0 j _ hj; simp at hj
  | cons h t ih =>
      intro db0 j hl hj
      have hlf : linkedFromB h t = true := hl
      have expand : fwdOps (h :: t)
          = .writeCanonical h.hash h.number :: .writeHeadHeaderHash h.hash :: fwdOps t := rfl
      have step : applyBatch db0 (fwdOps (h :: t))
          = applyBatch (applyOp (applyOp db0 (.writeCanonical h.hash h.number))
              (.writeHeadHeaderHash h.hash)) (fwdOps t) := by rw [expand]; rfl
      cases j with
      | zero =>
          simp only [List.getD_cons_zero]
          rw [step, readCanonicalHash_applyBatch_untouched (fwdOps t) _ h.number ?keys]
          · simp [applyOp, readCanonicalHash, List.lookup]
          case keys =>
            intro op hop
            rcases fwdOps_keys t op hop with hnone | ⟨x, hx, hk⟩
            · rw [hnone]; simp
            · rw [hk]
              have := linkedFromB_gt t h hlf x hx
              simp only [ne_eq, Option.some.injEq]
              omega
      | succ j2 =>
          simp only [List.getD_cons_succ]
          rw [step]
          cases t with
          | nil => simp at hj
          | cons x t2 =>
              have hl2 : chainLinkedB (x :: t2) = true := by
                simp only [linkedFromB, Bool.and_eq_true] at hlf
                exact hlf.2
              exact ih _ j2 hl2 (by simpa using hj)

/-- Successful Reorg on a nonempty batch produces exactly the input store
with one batch applied, the batch ending in the forward extension, and the
new tail as the in-memory head. -/
theorem reorg_ok_db (commitOk : Bool) (hc : HeaderChain) (first : Header)
    (rest : List Header) (hc2 : HeaderChain)
    (h : Reorg commitOk hc (first :: rest) = .ok hc2) :
    ∃ pre, hc2.db = applyBatch hc.db (pre ++ fwdOps (first :: rest))
      ∧ hc2.currentHeader = (first :: rest).getLastD first := by
  simp only [Reorg] at h
  split at h
  · cases h
  · split at h
    · cases h
      exact ⟨_, rfl, rfl⟩
    · cases h

/-- Reorg with a failing batch commit never yields a store: the whole batch
is withheld and the error is surfaced. -/
theorem reorg_commit_fail (hc : HeaderChain) (first : Header) (rest : List Header) :
    (Reorg false hc (first :: rest)).isOk = false := by
  simp only [Reorg]
  split
  · rfl
  · rfl

/-- Last element of a nonempty list as a default-index read. -/
theorem getLast?_getD :
    ∀ (l : List Header), l = [] ∨ l.getLast? = some (l.getD (l.length - 1) default) := by
  intro l
  induction l with
  | nil => exact Or.inl rfl
  | cons a t ih =>
      refine Or.inr ?_
      cases t with
      | nil => rfl
      | cons b t2 =>
          rcases ih with h | h
          · cases h
          · rw [List.getLast?_cons_cons, h]
            simp

/-- C4: for a parent-linked batch whose fork point (the parent of its first
header, canonical at one number below it) lies below the current head, a
successful Reorg leaves the canonical hash at every number from the first
header's to the tail's equal to the batch's hash there, never a mix of the
old chain and the batch; all canonical mutations travel in one atomic batch
and a failed batch commit yields an error with no store, leaving the prior
canonical mapping intact. -/
theorem c4_reorg (hc : HeaderChain) (headers : List Header) (first last : Header)
    (hhead : headers.head? = some first)
    (hlast : headers.getLast? = some last)
    (hlink : chainLinkedB headers = true)
    (hfork : readCanonicalHash hc.db (first.number - 1) = first.parentHash)
    (hbelow : first.number ≤ hc.currentHeader.number) :
    (∀ hc2, Reorg true hc headers = .ok hc2 →
      ∀ n, first.number ≤ n → n ≤ last.number →
        readCanonicalHash hc2.db n = (headers.getD (n - first.number) default).hash)
    ∧ (Reorg false hc headers).isOk = false := by
  obtain ⟨rest, rfl⟩ : ∃ rest, headers = first :: rest := by
    cases headers with
    | nil => cases hhead
    | cons a b =>
        simp only [List.head?_cons, Option.some.injEq] at hhead
        exact ⟨b, by rw [hhead]⟩
  have hnum_all : ∀ j, j < (first :: rest).length →
      ((first :: rest).getD j default).number = first.number + j := by
    intro j hj
    cases j with
    | zero => simp
    | succ j2 =>
        have := linkedFromB_getD_number rest first hlink j2 (by simpa using hj)
        simpa using this
  have hlastD : last = (first :: rest).getD rest.length default := by
    rcases getLast?_getD (first :: rest) with h | h
    · cases h
    · rw [h] at hlast
      simp only [List.length_cons, Nat.add_sub_cancel] at hlast
      exact (Option.some.injEq _ _ ▸ hlast).symm
  have hlastnum : last.number = first.number + rest.length := by
    rw [hlastD]
    exact hnum_all rest.length (by simp)
  constructor
  · intro hc2 hok n hn1 hn2
    obtain ⟨pre, hdb, -⟩ := reorg_ok_db true hc first rest hc2 hok
    have happd : applyBatch hc.db (pre ++ fwdOps (first :: rest))
        = applyBatch (applyBatch hc.db pre) (fwdOps (first :: rest)) := by
      unfold applyBatch
      rw [List.foldl_append]
    have hj : n - first.number < (first :: rest).length := by
      simp only [List.length_cons]
      omega
    have hnum := hnum_all (n - first.number) hj
    have := readCanonicalHash_fwdOps (first :: rest) (applyBatch hc.db pre)
      (n - first.number) hlink hj
    rw [hnum] at this
    rw [hdb, happd]
    have hn : first.number + (n - first.number) = n := by omega
    rw [hn] at this
    exact this
  · exact reorg_commit_fail hc first rest

/-- Old-chain headers of the C4 witness: hashes 1, 2, 3 at numbers 0, 1, 2. -/
def c4hcW : HeaderChain :=
  { db := { headers := [⟨0, 1, 0, 0, 0, 0, 0, 0⟩, ⟨1, 2, 1, 0, 0, 0, 0, 0⟩,
              ⟨2, 3, 2, 0, 0, 0, 0, 0⟩],
            canonical := [(0, 1), (1, 2), (2, 3)],
            headHeaderHash := 3, headBlockHash := 3,
            headFastBlockHash := 3, finalizedBlockHash := 0 },
    currentHeader := ⟨2, 3, 2, 0, 0, 0, 0, 0⟩ }

/-- Replacement batch of the C4 witness: hashes 12, 13 at numbers 1, 2,
forking off the canonical header at number 0. -/
def c4headersW : List Header :=
  [⟨1, 12, 1, 0, 0, 0, 0, 0⟩, ⟨12, 13, 2, 0, 0, 0, 0, 0⟩]

/-- Witness for C4 at a concrete reorg below the head: both replaced numbers
map to the new chain's hashes afterwards, and a failing commit yields no
store. -/
theorem c4_reorg_witness :
    ∃ hc2, Reorg true c4hcW c4headersW = .ok hc2
      ∧ readCanonicalHash hc2.db 1 = 12
      ∧ readCanonicalHash hc2.db 2 = 13
      ∧ (Reorg false c4hcW c4headersW).isOk = false := by
  have hmain := c4_reorg c4hcW c4headersW ⟨1, 12, 1, 0, 0, 0, 0, 0⟩
    ⟨12, 13, 2, 0, 0, 0, 0, 0⟩ (by decide) (by decide) (by decide) (by decide) (by decide)
  obtain ⟨hc2, hok⟩ : ∃ hc2, Reorg true c4hcW c4headersW = .ok hc2 := by
    cases hres : Reorg true c4hcW c4headersW with
    | ok x => exact ⟨x, rfl⟩
    | error e =>
        have hgood : (Reorg true c4hcW c4headersW).isOk = true := by decide
        rw [hres] at hgood
        simp [Except.isOk, Except.toBool] at hgood
  refine ⟨hc2, hok, ?_, ?_, hmain.2⟩
  · have h := hmain.1 hc2 hok 1 (by decide) (by decide)
    simpa [c4headersW] using h
  · have h := hmain.1 hc2 hok 2 (by decide) (by decide)
    simpa [c4headersW] using h

/-! ### Genesis committer (src/core/genesis.go lines 30-256) -/

/-- Distinguished state root of the empty trie (geth types.EmptyRootHash),
embedded as an abstract nonzero constant. -/
def emptyRootHash : Hash := 1

/-- Distinguished receipts root of an empty receipt set
(geth types.EmptyReceiptsHash), embedded as an abstract nonzero constant. -/
def emptyReceiptsHash : Hash := 2

/-- Genesis account of the allocation table: optional balance, nonce, code
and storage. -/
structure GAccount where
  balance : Option Int
  nonce : Nat
  code : List Nat
  storage : List (Nat × Nat)
  deriving DecidableEq, Repr

/-- GenesisAlloc (src/core/genesis.go line 41): address to account. -/
abbrev GenesisAlloc := List (Addr × GAccount)

/-- Materialized account state inside a state database. -/
structure StAcc where
  balance : Int
  nonce : Nat
  code : List Nat
  storage : List (Nat × Nat)
  deriving DecidableEq, Repr

/-- Logical content of a geth StateDB: address to materialized account,
first binding wins. -/
abbrev StateMap := List (Addr × StAcc)

/-- Empty account created on first touch. -/
def emptyStAcc : StAcc := ⟨0, 0, [], []⟩

/-- Current account value at an address. -/
def stGet (s : StateMap) (a : Addr) : StAcc := (s.lookup a).getD emptyStAcc

/-- Replacement of the account value at an address. -/
def stSet (s : StateMap) (a : Addr) (acc : StAcc) : StateMap := (a, acc) :: s

/-- StateDB.AddBalance. -/
def AddBalance (s : StateMap) (a : Addr) (b : Int) : StateMap :=
  stSet s a { stGet s a with balance := (stGet s a).balance + b }

/-- StateDB.SetCode. -/
def SetCode (s : StateMap) (a : Addr) (code : List Nat) : StateMap :=
  stSet s a { stGet s a with code := code }

/-- StateDB.SetNonce. -/
def SetNonce (s : StateMap) (a : Addr) (nonce : Nat) : StateMap :=
  stSet s a { stGet s a with nonce := nonce }

/-- StateDB.SetState: one storage slot write. -/
def SetState (s : StateMap) (a : Addr) (key value : Nat) : StateMap :=
  stSet s a { stGet s a with storage := (key, value) :: (stGet s a).storage }

/-- Materialization of one allocation entry, exactly the loop body shared by
hash and flush (src/core/genesis.go lines 74-83 and 95-103): add the
balance when present, set code, set nonce, write every storage slot. -/
def applyAccount (s : StateMap) (addr : Addr) (account : GAccount) : StateMap :=
  let s1 := match account.balance with
    | some b => AddBalance s addr b
    | none => s
  let s2 := SetCode s1 addr account.code
  let s3 := SetNonce s2 addr account.nonce
  account.storage.foldl (fun st kv => SetState st addr kv.1 kv.2) s3

/-- Config-compatibility error of the upstream library
(params.ConfigCompatError): the rewind targets it carries. -/
structure CompatErr where
  rewindToBlock : Nat
  rewindToTime : Nat
  deriving DecidableEq, Repr

/-- External collaborators of the genesis committer: the state-trie
commitment - a deterministic function of the committing trie database's
verkle configuration, the materialized state and the block number, since a
verkle tree and a merkle-patricia tree commit to different roots - the
upstream client, and the geth config checks. -/
structure GenesisEnv where
  commitRoot : Bool → StateMap → Nat → Hash
  blockByNumber : Nat → Except String EthBlock
  checkConfigForkOrder : ChainConfig → Option String
  checkCompatible : ChainConfig → ChainConfig → Nat → Nat → Option CompatErr
  isVerkle : ChainConfig → Nat → Nat → Bool

/-- GenesisAlloc.hash (src/core/genesis.go lines 56-85): materialize the
allocation into an ephemeral in-memory database - configured as a verkle
trie exactly when the flag says so - and return its root commitment; no
store is touched (the function receives none and returns only the root). -/
def GenesisAlloc.hash (env : GenesisEnv) (ga : GenesisAlloc) (isVerkle : Bool)
    (blocknum : Nat) : Hash :=
  env.commitRoot isVerkle (ga.foldl (fun s p => applyAccount s p.1 p.2) []) blocknum

/-- Persistent store of the genesis committer: the header chain store plus
the chain-config, genesis-state-spec and receipts keyspaces. -/
structure GenesisDB where
  chain : ChainDB
  configs : List (Hash × ChainConfig)
  stateSpecs : List (Hash × GenesisAlloc)
  receipts : List (Hash × Nat)
  deriving DecidableEq, Repr

/-- Trie database: its verkle configuration and the set of initialized
(persisted) state roots. In the repository's wiring a caller's trie
database comes from trie.NewDatabase with triedbConfig
(src/core/blockchain.go lines 91-106), which selects the hash or path
backend and never enables verkle. -/
structure TrieDB where
  isVerkle : Bool
  inited : List Hash
  deriving DecidableEq, Repr

/-- Trie database produced by triedbConfig: never verkle-configured. -/
def trieDBFromConfig (inited : List Hash) : TrieDB :=
  { isVerkle := false, inited := inited }

/-- GenesisAlloc.flush (src/core/genesis.go lines 90-122): materialize the
same state as hash, commit it through the caller's trie database (whose
configuration, not a flag argument, decides the commitment scheme), persist
the root into the trie database when it is not the empty root, and persist
the allocation spec keyed by block hash. The committed root, internal to
the Go function, is returned third so the theorems can speak about it. -/
def GenesisAlloc.flush (env : GenesisEnv) (ga : GenesisAlloc) (db : GenesisDB)
    (triedb : TrieDB) (blockhash : Hash) (blocknum : Nat) :
    GenesisDB × TrieDB × Hash :=
  let root := env.commitRoot triedb.isVerkle
    (ga.foldl (fun s p => applyAccount s p.1 p.2) []) blocknum
  let triedb2 := if root ≠ emptyRootHash then
      { triedb with inited := root :: triedb.inited } else triedb
  let db2 := { db with stateSpecs := (blockhash, ga) :: db.stateSpecs }
  (db2, triedb2, root)

/-- Genesis specification (src/core/genesis.go lines 30-33). -/
structure Genesis where
  config : Option ChainConfig
  alloc : GenesisAlloc
  deriving DecidableEq, Repr

/-- DefaultGenesisBlock (src/core/genesis.go lines 251-256). -/
def DefaultGenesisBlock : Genesis := { config := some mainnetConfig, alloc := [] }

/-- Genesis.ToHeader (src/core/genesis.go lines 210-223): the genesis header
carries the upstream block's parent hash, hash, number and time, the state
root computed by GenesisAlloc.hash, and the empty receipts root. -/
def Genesis.ToHeader (env : GenesisEnv) (g : Genesis) (cfg : ChainConfig)
    (block : EthBlock) : Header :=
  let root := GenesisAlloc.hash env g.alloc
    (env.isVerkle cfg block.number block.time) block.number
  { parentHash := block.parentHash, hash := block.hash, number := block.number,
    time := block.time, root := root, receiptHash := emptyReceiptsHash,
    bloom := 0, gasUsed := 0 }

/-- Header write into the genesis store (miverawdb.WriteHeader). -/
def writeMiveHeader (db : GenesisDB) (h : Header) : GenesisDB :=
  { db with chain := { db.chain with headers := h :: db.chain.headers } }

/-- Canonical-hash write into the genesis store. -/
def writeCanonicalG (db : GenesisDB) (hash : Hash) (num : Nat) : GenesisDB :=
  { db with chain := { db.chain with canonical := (num, hash) :: db.chain.canonical } }

/-- Chain-config write into the genesis store. -/
def writeChainConfigG (db : GenesisDB) (hash : Hash) (cfg : ChainConfig) : GenesisDB :=
  { db with configs := (hash, cfg) :: db.configs }

/-- Genesis.Commit (src/core/genesis.go lines 225-248): fork-order check,
clique minimum-extra check, flush, then the header, empty receipt set,
canonical hash, head markers and configuration writes. -/
def Genesis.Commit (env : GenesisEnv) (g : Genesis) (db : GenesisDB)
    (triedb : TrieDB) (block : EthBlock) :
    Except String (Header × GenesisDB × TrieDB) :=
  match g.config with
  | none => .error "genesis has no chain configuration"
  | some config =>
      let header := Genesis.ToHeader env g config block
      match env.checkConfigForkOrder config with
      | some e => .error e
      | none =>
          if config.eth.clique ∧ block.extraLen < 32 + 65 then
            .error "cant start clique chain without signers"
          else
            let f := GenesisAlloc.flush env g.alloc db triedb block.hash block.number
            let db2 := writeMiveHeader f.1 header
            let db3 := { db2 with receipts := (block.hash, block.number) :: db2.receipts }
            let db4 := writeCanonicalG db3 block.hash block.number
            let db5 := { db4 with chain := { db4.chain with
              headBlockHash := block.hash, headFastBlockHash := block.hash,
              headHeaderHash := block.hash } }
            let db6 := writeChainConfigG db5 block.hash config
            .ok (header, db6, f.2.1)

/-- ReadHeadHeader against the genesis store (src/core/rawdb lines 49-59). -/
def readHeadHeaderG (db : GenesisDB) : Option Header :=
  if db.chain.headHeaderHash = 0 then none
  else
    match readHeaderNumber db.chain db.chain.headHeaderHash with
    | none => none
    | some num => readHeader db.chain db.chain.headHeaderHash num

/-- ChainOverrides (geth core.ChainOverrides): optional Cancun and Verkle
activation overrides. -/
structure ChainOverrides where
  overrideCancun : Option Nat
  overrideVerkle : Option Nat
  deriving DecidableEq, Repr

/-- applyOverrides of SetupGenesisBlockWithOverride (src/core/genesis.go
lines 128-137). -/
def applyOverrides (overrides : Option ChainOverrides) (cfg : ChainConfig) :
    ChainConfig :=
  match overrides with
  | none => cfg
  | some ov =>
      let eth1 := match ov.overrideCancun with
        | some t => { cfg.eth with cancunTime := some t }
        | none => cfg.eth
      let eth2 := match ov.overrideVerkle with
        | some t => { eth1 with verkleTime := some t }
        | none => eth1
      { cfg with eth := eth2 }

/-- Setup outcome of SetupGenesisBlockWithOverride. -/
inductive SetupErr where
  | noConfig
  | clientErr (e : String)
  | commitErr (e : String)
  | mismatch (stored newHash : Hash)
  | missingGenesisHeader
  | forkOrder (e : String)
  | missingHead
  | compat (ce : CompatErr)
  deriving DecidableEq, Repr

/-- SetupGenesisBlockWithOverride (src/core/genesis.go lines 124-201). The
pair returned second and third is the store and trie database after the
call, so that theorems can state which paths mutate them; Go mutates the
same stores in place. -/
def SetupGenesisBlockWithOverride (env : GenesisEnv) (db : GenesisDB)
    (triedb : TrieDB) (genesis0 : Option Genesis)
    (overrides : Option ChainOverrides) :
    Except SetupErr (ChainConfig × Hash) × GenesisDB × TrieDB :=
  if genesis0.isSome ∧ (genesis0.getD DefaultGenesisBlock).config = none then
    (.error .noConfig, db, triedb)
  else
    let genesis1 := genesis0.getD DefaultGenesisBlock
    let genesis := { genesis1 with
      config := genesis1.config.map (applyOverrides overrides) }
    match genesis.config with
    | none => (.error .noConfig, db, triedb)
    | some cfg =>
        let genesisNum := cfg.mive.genesisBlock
        match env.blockByNumber genesisNum with
        | .error e => (.error (.clientErr e), db, triedb)
        | .ok genesisBlock =>
            let genesisHash := genesisBlock.hash
            let stored := readCanonicalHash db.chain genesisNum
            if stored = 0 then
              match Genesis.Commit env genesis db triedb genesisBlock with
              | .error e => (.error (.commitErr e), db, triedb)
              | .ok (header, db2, t2) => (.ok (cfg, header.hash), db2, t2)
            else if genesisHash ≠ stored then
              (.error (.mismatch stored genesisHash), db, triedb)
            else
              match readHeader db.chain stored genesisNum with
              | none => (.error .missingGenesisHeader, db, triedb)
              | some header =>
                  if header.root ≠ emptyRootHash ∧ header.root ∉ triedb.inited then
                    match Genesis.Commit env genesis db triedb genesisBlock with
                    | .error e => (.error (.commitErr e), db, triedb)
                    | .ok (header2, db2, t2) => (.ok (cfg, header2.hash), db2, t2)
                  else
                    match env.checkConfigForkOrder cfg with
                    | some e => (.error (.forkOrder e), db, triedb)
                    | none =>
                        match db.configs.lookup stored with
                        | none =>
                            (.ok (cfg, stored), writeChainConfigG db stored cfg, triedb)
                        | some storedcfg =>
                            match readHeadHeaderG db with
                            | none => (.error .missingHead, db, triedb)
                            | some head =>
                                let rest :=
                                  if cfg ≠ storedcfg then
                                    ((.ok (cfg, stored), writeChainConfigG db stored cfg,
                                      triedb) :
                                      Except SetupErr (ChainConfig × Hash) × GenesisDB × TrieDB)
                                  else (.ok (cfg, stored), db, triedb)
                                match env.checkCompatible storedcfg cfg head.number head.time with
                                | some ce =>
                                    if (head.number ≠ 0 ∧ ce.rewindToBlock ≠ 0)
                                        ∨ (head.time ≠ 0 ∧ ce.rewindToTime ≠ 0) then
                                      (.error (.compat ce), db, triedb)
                                    else rest
                                | none => rest

/-- C7: with a canonical genesis entry already stored and a supplied genesis
spec resolving through the upstream client to a different hash,
SetupGenesisBlockWithOverride returns the genesis-mismatch error carrying
the stored and the new hash, and the store and trie database come back
exactly as they went in: no header, canonical, config or state write. -/
theorem c7_genesis_mismatch (env : GenesisEnv) (db : GenesisDB) (triedb : TrieDB)
    (g0 : Genesis) (cfg : ChainConfig) (blk : EthBlock) (stored : Hash)
    (hcfg : g0.config = some cfg)
    (hclient : env.blockByNumber cfg.mive.genesisBlock = .ok blk)
    (hstored : readCanonicalHash db.chain cfg.mive.genesisBlock = stored)
    (hstored0 : stored ≠ 0)
    (hne : blk.hash ≠ stored) :
    SetupGenesisBlockWithOverride env db triedb (some g0) none
      = (.error (.mismatch stored blk.hash), db, triedb) := by
  unfold SetupGenesisBlockWithOverride
  rw [if_neg (by simp [hcfg])]
  simp only [Option.getD_some, hcfg]
  have hmap : Option.map (applyOverrides none) (some cfg) = some cfg := rfl
  rw [hmap]
  simp only [hclient, hstored]
  rw [if_neg hstored0, if_pos hne]

/-- Upstream genesis block used by the C7 witness: hash 77 at number 0. -/
def c7blk : EthBlock := { hash := 77, parentHash := 0, number := 0, time := 0, extraLen := 0 }

/-- Collaborators of the C7 witness. -/
def c7env : GenesisEnv :=
  { commitRoot := fun _ s n => s.length + n + 3
    blockByNumber := fun _ => .ok c7blk
    checkConfigForkOrder := fun _ => none
    checkCompatible := fun _ _ _ _ => none
    isVerkle := fun _ _ _ => false }

/-- Store of the C7 witness: canonical genesis hash 55 already present at
number 0. -/
def c7db : GenesisDB :=
  { chain := { headers := [⟨0, 55, 0, 0, 1, 2, 0, 0⟩], canonical := [(0, 55)],
               headHeaderHash := 55, headBlockHash := 55,
               headFastBlockHash := 55, finalizedBlockHash := 0 },
    configs := [], stateSpecs := [], receipts := [] }

/-- Genesis spec supplied by the C7 witness. -/
def c7genesis : Genesis := { config := some mainnetConfig, alloc := [] }

/-- Witness for C7 at a concrete store: stored hash 55 against resolved hash
77 yields the mismatch error and the untouched store. -/
theorem c7_genesis_mismatch_witness :
    SetupGenesisBlockWithOverride c7env c7db (trieDBFromConfig []) (some c7genesis) none
      = (.error (.mismatch 55 77), c7db, trieDBFromConfig []) :=
  c7_genesis_mismatch c7env c7db (trieDBFromConfig []) c7genesis mainnetConfig c7blk 55
    rfl rfl (by decide) (by decide) (by decide)

/-- C9 (amended): the root returned by the ephemeral, store-free
GenesisAlloc.hash equals the root GenesisAlloc.flush commits for the same
allocation and block number whenever the verkle flag agrees with the
committing trie database's configuration - in the repository's wiring the
caller's trie database is never verkle, so the equality holds exactly for
the non-verkle case; a nonempty committed root is durable in the trie
database flush returns; and the genesis header Commit produces is exactly
ToHeader's, its root durable after Commit under the same agreement. -/
theorem c9_hash_flush_commit (env : GenesisEnv) (ga : GenesisAlloc)
    (isVerkle : Bool) (blocknum : Nat) (db : GenesisDB) (triedb : TrieDB)
    (blockhash : Hash) (g : Genesis) (block : EthBlock) :
    (isVerkle = triedb.isVerkle →
      GenesisAlloc.hash env ga isVerkle blocknum
        = (GenesisAlloc.flush env ga db triedb blockhash blocknum).2.2)
    ∧ ((GenesisAlloc.flush env ga db triedb blockhash blocknum).2.2 ≠ emptyRootHash →
        (GenesisAlloc.flush env ga db triedb blockhash blocknum).2.2
          ∈ (GenesisAlloc.flush env ga db triedb blockhash blocknum).2.1.inited)
    ∧ (∀ cfg header db2 t2, g.config = some cfg →
        Genesis.Commit env g db triedb block = .ok (header, db2, t2) →
        header = Genesis.ToHeader env g cfg block
        ∧ header.root = GenesisAlloc.hash env g.alloc
            (env.isVerkle cfg block.number block.time) block.number
        ∧ (env.isVerkle cfg block.number block.time = triedb.isVerkle →
            header.root ≠ emptyRootHash → header.root ∈ t2.inited)) := by
  refine ⟨?_, ?_, ?_⟩
  · intro hflag
    unfold GenesisAlloc.hash GenesisAlloc.flush
    rw [hflag]
  · intro hne
    by_cases h : env.commitRoot triedb.isVerkle
        (ga.foldl (fun s p => applyAccount s p.1 p.2) []) blocknum = emptyRootHash
    · exact absurd h hne
    · simp only [GenesisAlloc.flush]
      rw [if_pos h]
      exact List.mem_cons_self _ _
  · intro cfg header db2 t2 hcfg hok
    simp only [Genesis.Commit, hcfg] at hok
    cases hfo : env.checkConfigForkOrder cfg with
    | some e => rw [hfo] at hok; simp at hok
    | none =>
        rw [hfo] at hok
        by_cases hcl : cfg.eth.clique ∧ block.extraLen < 32 + 65
        · rw [if_pos hcl] at hok; simp at hok
        · rw [if_neg hcl] at hok
          simp only [Except.ok.injEq, Prod.mk.injEq] at hok
          obtain ⟨hheader, -, ht2⟩ := hok
          refine ⟨hheader.symm, ?_, ?_⟩
          · rw [← hheader]
            rfl
          · intro hflag hne
            rw [← ht2]
            have hroot : header.root
                = env.commitRoot (env.isVerkle cfg block.number block.time)
                    (g.alloc.foldl (fun s p => applyAccount s p.1 p.2) [])
                    block.number := by
              rw [← hheader]
              rfl
            rw [hflag] at hroot
            by_cases h : env.commitRoot triedb.isVerkle
                (g.alloc.foldl (fun s p => applyAccount s p.1 p.2) [])
                block.number = emptyRootHash
            · rw [hroot] at hne
              exact absurd h hne
            · simp only [GenesisAlloc.flush]
              rw [if_pos h, hroot]
              exact List.mem_cons_self _ _

/-- Allocation of the C9 witness: one account with balance 5. -/
def c9alloc : GenesisAlloc := [(1, { balance := some 5, nonce := 0, code := [], storage := [] })]

/-- Genesis spec of the C9 witness. -/
def c9genesis : Genesis := { config := some mainnetConfig, alloc := c9alloc }

/-- Upstream genesis block of the C9 witness. -/
def c9block : EthBlock := { hash := 10, parentHash := 9, number := 0, time := 0, extraLen := 100 }

/-- Empty store for the C9 witness. -/
def c9db : GenesisDB :=
  { chain := { headers := [], canonical := [], headHeaderHash := 0,
               headBlockHash := 0, headFastBlockHash := 0, finalizedBlockHash := 0 },
    configs := [], stateSpecs := [], receipts := [] }

/-- Collaborators of the C9 counterexample: a commitment family in which the
verkle and merkle-patricia roots of the same state differ, as they do for
the real tries. -/
def c9envX : GenesisEnv :=
  { commitRoot := fun isVerkle s n => (if isVerkle then 1000 else 2000) + s.length + n
    blockByNumber := fun _ => .error "unused"
    checkConfigForkOrder := fun _ => none
    checkCompatible := fun _ _ _ _ => none
    isVerkle := fun _ _ _ => true }

/-- Counterexample for C9 as stated: with the verkle flag true,
GenesisAlloc.hash commits through a verkle-configured ephemeral database
while flush commits through the caller's trie database, which triedbConfig
never configures as verkle, so for a commitment family distinguishing the
two schemes the roots differ - the for-every-verkle-flag equality fails. -/
theorem c9_hash_flush_counterexample :
    (trieDBFromConfig []).isVerkle = false
    ∧ GenesisAlloc.hash c9envX c9alloc true 0
      ≠ (GenesisAlloc.flush c9envX c9alloc c9db (trieDBFromConfig []) 10 0).2.2 := by
  refine ⟨by decide, by decide⟩

/-- Witness for C9 (amended) at a concrete allocation: with the agreeing
(non-verkle) configuration hash equals the flushed root, and Commit
persists a genesis header whose root is durable. -/
theorem c9_hash_flush_commit_witness :
    GenesisAlloc.hash c7env c9alloc false 0
      = (GenesisAlloc.flush c7env c9alloc c9db (trieDBFromConfig []) 10 0).2.2
    ∧ ∃ header db2 t2, Genesis.Commit c7env c9genesis c9db (trieDBFromConfig []) c9block
        = .ok (header, db2, t2) ∧ header.root ∈ t2.inited := by
  refine ⟨(c9_hash_flush_commit c7env c9alloc false 0 c9db (trieDBFromConfig []) 10
    c9genesis c9block).1 (by decide), ?_⟩
  obtain ⟨⟨header, db2, t2⟩, hok⟩ :
      ∃ r, Genesis.Commit c7env c9genesis c9db (trieDBFromConfig []) c9block = .ok r := by
    cases hres : Genesis.Commit c7env c9genesis c9db (trieDBFromConfig []) c9block with
    | ok r => exact ⟨r, rfl⟩
    | error e =>
        have hgood : (Genesis.Commit c7env c9genesis c9db (trieDBFromConfig [])
            c9block).isOk = true := by
          decide
        rw [hres] at hgood
        simp [Except.isOk, Except.toBool] at hgood
  have h3 := (c9_hash_flush_commit c7env c9alloc false 0 c9db (trieDBFromConfig []) 10
    c9genesis c9block).2.2 mainnetConfig header db2 t2 rfl hok
  refine ⟨header, db2, t2, hok, h3.2.2 (by decide) ?_⟩
  rw [h3.2.1]
  decide

/-! ### SetHead rewind (src/core/blockchain.go lines 367-596) -/

/-- In-memory and persistent state of the BlockChain relevant to SetHead:
the header chain store with its markers, the genesis header, the four head
pointers, the set of materialized state roots, the set of recoverable
roots with the state-scheme flag, the snap-sync pivot, the ancient-segment
length, and the upstream client's blocks as a lookup table. -/
structure BCState where
  db : ChainDB
  genesisHeader : Header
  currentBlock : Option Header
  currentSnapBlock : Option Header
  currentFinalBlock : Option Header
  currentSafeBlock : Option Header
  hasStateRoots : List Hash
  recoverableRoots : List Hash
  pathScheme : Bool
  pivot : Option Nat
  frozen : Nat
  ethBlocks : List EthBlock
  deriving DecidableEq, Repr

/-- BlockChain.HasState: whether the state trie of a root is fully present
(the state database is a collaborator; its contents are the field). -/
def HasState (st : BCState) (root : Hash) : Bool :=
  st.hasStateRoots.contains root

/-- BlockChain.stateRecoverable (src/core/blockchain.go lines 872-878):
never recoverable under the hash scheme, otherwise the trie database's
answer. -/
def stateRecoverable (st : BCState) (root : Hash) : Bool :=
  st.pathScheme && st.recoverableRoots.contains root

/-- Usable state: materialized or recoverable. -/
def usableState (st : BCState) (root : Hash) : Bool :=
  HasState st root || stateRecoverable st root

/-- triedb.Recover: regenerate a recoverable root, making it present. -/
def triedbRecover (st : BCState) (root : Hash) : BCState :=
  { st with hasStateRoots := root :: st.hasStateRoots }

/-- Rewind loop of updateFn (src/core/blockchain.go lines 460-493),
specialized to the SetHead entry point, whose root threshold is the zero
hash so beyondRoot is true from the start: while the candidate's state is
neither materialized nor recoverable, move to the parent if the pivot has
not been reached and the parent is stored, else fall to the genesis header;
stop at the first candidate with usable state. Fuel-structural recursion;
the caller passes the starting number plus two, which the walk (one number
down per step, stopping at the genesis number or at a missing parent)
never exhausts. -/
def rewindLoop (st : BCState) : Nat → Header → Header
  | 0, nb => nb
  | fuel + 1, nb =>
      if HasState st nb.root = false ∧ stateRecoverable st nb.root = false then
        if st.pivot = none ∨ nb.number > st.pivot.getD 0 then
          match readHeader st.db nb.parentHash (nb.number - 1) with
          | some parent => rewindLoop st fuel parent
          | none => st.genesisHeader
        else st.genesisHeader
      else nb

/-- Recovery at the loop break (src/core/blockchain.go lines 480-489): when
the chosen head's state is missing but recoverable, run state recovery in
place. -/
def recoverAtBreak (st : BCState) (h : Header) : BCState :=
  if HasState st h.root = false ∧ stateRecoverable st h.root = true then
    triedbRecover st h.root
  else st

/-- Block-head part of updateFn (src/core/blockchain.go lines 450-511):
when the rewind target is at or below the current block, pick the new head
by the rewind loop (or the genesis header on a gap), write the head-block
marker and update the in-memory pointer. -/
def updateBlockHead (st : BCState) (header : Header) : BCState :=
  match st.currentBlock with
  | some currentBlock =>
      if header.number ≤ currentBlock.number then
        match readHeader st.db header.hash header.number with
        | none =>
            { st with db := { st.db with headBlockHash := st.genesisHeader.hash },
                      currentBlock := some st.genesisHeader }
        | some nb =>
            let nh := rewindLoop st (nb.number + 2) nb
            let st2 := recoverAtBreak st nh
            { st2 with db := { st2.db with headBlockHash := nh.hash },
                       currentBlock := some nh }
      else st
  | none => st

/-- Snap-head part of updateFn (src/core/blockchain.go lines 513-528): the
snap block rewinds in a simpleton way to the target head itself. -/
def updateSnapHead (st : BCState) (header : Header) : BCState :=
  match st.currentSnapBlock with
  | some snap =>
      if header.number < snap.number then
        match readHeader st.db header.hash header.number with
        | none =>
            { st with db := { st.db with headFastBlockHash := st.genesisHeader.hash },
                      currentSnapBlock := some st.genesisHeader }
        | some ns =>
            { st with db := { st.db with headFastBlockHash := ns.hash },
                      currentSnapBlock := some ns }
      else st
  | none => st

/-- updateFn of setHeadBeyondRoot (src/core/blockchain.go lines 446-541):
rewind the block head, rewind the snap head, and report the resulting head
header together with the force-wipe flag for the ancient segment. -/
def updateFn (st : BCState) (header : Header) : BCState × Header × Bool :=
  let st2 := updateSnapHead (updateBlockHead st header) header
  let headHeader := st2.currentBlock.getD st2.genesisHeader
  (st2, headHeader,
    decide (headHeader.number + 1 < st2.frozen)
      && (decide (st2.pivot = none) || decide (headHeader.number ≥ st2.pivot.getD 0)))

/-- Current head header resolved through the head-header marker. -/
def readHeadHeaderBC (st : BCState) : Option Header :=
  if st.db.headHeaderHash = 0 then none
  else
    match readHeaderNumber st.db st.db.headHeaderHash with
    | none => none
    | some num => readHeader st.db st.db.headHeaderHash num

/-- Canonical header at a number. -/
def headerAtCanonical (st : BCState) (n : Nat) : Option Header :=
  if readCanonicalHash st.db n = 0 then none
  else readHeader st.db (readCanonicalHash st.db n) n

/-- Modelled from the spec: HeaderChain.SetHead, invoked by
setHeadBeyondRoot with the updateFn and delFn callbacks, is code of this
repository missing from src/ (only its caller is present). Per the
specification it rewinds the header chain to the target, driving the
block-head rewind through updateFn while deleting headers and canonical
entries above the target (or above the rewound head when the ancient
segment must be wiped). The net effect of the iterated geth-style walk on
the block head equals one updateFn invocation at the canonical header of
the rewind target, which is how it is modelled; receipt deletion by delFn
is outside this state model. -/
def hcSetHead (st : BCState) (target : Nat) : BCState :=
  match readHeadHeaderBC st with
  | none => st
  | some cur =>
      if cur.number ≤ target then st
      else
        match headerAtCanonical st target with
        | none => st
        | some hdr =>
            let u := updateFn st hdr
            let st2 := u.1
            let cut := if u.2.2 then u.2.1.number else target
            { st2 with
              db := { st2.db with
                headers := st2.db.headers.filter (fun h => decide (h.number ≤ cut)),
                canonical := st2.db.canonical.filter (fun p => decide (p.1 ≤ cut)),
                headHeaderHash := readCanonicalHash st2.db cut } }

/-- BlockChain.SetSafe (src/core/blockchain.go lines 423-430): in-memory
only. -/
def SetSafe (st : BCState) (h : Option Header) : BCState :=
  { st with currentSafeBlock := h }

/-- BlockChain.SetFinalized (src/core/blockchain.go lines 411-420): updates
the pointer and persists the finalized-block hash (zero when clearing). -/
def SetFinalized (st : BCState) (h : Option Header) : BCState :=
  { st with currentFinalBlock := h,
            db := { st.db with finalizedBlockHash := (h.map (·.hash)).getD 0 } }

/-- Safe/finalized clearing of setHeadBeyondRoot (src/core/blockchain.go
lines 586-594): each pointer is cleared exactly when the requested rewind
target lies strictly below its number. -/
def clearStalePointers (st : BCState) (head : Nat) : BCState :=
  let st2 :=
    match st.currentSafeBlock with
    | some safe => if head < safe.number then SetSafe st none else st
    | none => st
  match st2.currentFinalBlock with
  | some fin => if head < fin.number then SetFinalized st2 none else st2
  | none => st2

/-- Upstream client of a BCState as a hash-indexed function. -/
def ethClientOf (st : BCState) : Hash → Except String EthBlock :=
  fun h =>
    match st.ethBlocks.find? (fun b => b.hash = h) with
    | some b => .ok b
    | none => .error "not found"

/-- BlockChain.GetBlockByHash (src/core/blockchain.go lines 798-804):
resolve the number through the store, then fetch through GetBlock. The
block cache is empty here: setHeadBeyondRoot purges it (line 583) right
before the loadLastState reload that reads through this function. -/
def GetBlockByHashBC (st : BCState) (hash : Hash) : Option EthBlock :=
  match readHeaderNumber st.db hash with
  | none => none
  | some number => (BlockChain.GetBlock [] (ethClientOf st) hash number).1

/-- BlockChain.GetHeaderByHash against the store. -/
def GetHeaderByHashBC (st : BCState) (hash : Hash) : Option Header :=
  match readHeaderNumber st.db hash with
  | none => none
  | some number => readHeader st.db hash number

/-- loadLastState (src/core/blockchain.go lines 249-329): restore the head,
snap and finalized/safe pointers from the persisted marker hashes. The
fall-back full reset to genesis taken on an unresolvable head marker is
out of the modelled rewind scenarios and is signalled as none. -/
def loadLastState (st : BCState) : Option BCState :=
  if st.db.headBlockHash = 0 then none
  else
    match GetBlockByHashBC st st.db.headBlockHash with
    | none => none
    | some _ =>
        match GetHeaderByHashBC st st.db.headBlockHash with
        | none => none
        | some headHeader =>
            let st1 := { st with currentBlock := some headHeader,
                                 currentSnapBlock := some headHeader }
            let st2 :=
              if st1.db.headFastBlockHash ≠ 0 then
                match GetHeaderByHashBC st1 st1.db.headFastBlockHash with
                | some h2 => { st1 with currentSnapBlock := some h2 }
                | none => st1
              else st1
            let st3 :=
              if st2.db.finalizedBlockHash ≠ 0 then
                match GetHeaderByHashBC st2 st2.db.finalizedBlockHash with
                | some h3 => { st2 with currentFinalBlock := some h3,
                                        currentSafeBlock := some h3 }
                | none => st2
              else st2
            some st3

/-- setHeadBeyondRoot (src/core/blockchain.go lines 432-596) specialized to
the SetHead entry point (target by number, zero root threshold, no repair):
rewind the header chain driving updateFn, clear the stale safe/finalized
pointers against the requested target, and reload the last state. -/
def setHeadInner (st : BCState) (head : Nat) : Option BCState :=
  loadLastState (clearStalePointers (hcSetHead st head) head)

/-- BlockChain.SetHead (src/core/blockchain.go lines 370-386): the rewind
followed by the current-block availability check feeding the head event. -/
def BlockChain.SetHead (st : BCState) (head : Nat) : Option BCState :=
  match setHeadInner st head with
  | none => none
  | some st2 =>
      match st2.currentBlock with
      | none => none
      | some h =>
          match (BlockChain.GetBlock [] (ethClientOf st2) h.hash h.number).1 with
          | none => none
          | some _ => some st2

/-- Descent chain of a rewind: starting at its head, every element's state
is unusable and its parent is the stored next element, until the last
element, whose state is usable. -/
def descentOk (st : BCState) : List Header → Bool
  | [] => false
  | [x] => usableState st x.root
  | x :: y :: t =>
      !(usableState st x.root)
        && decide (readHeader st.db x.parentHash (x.number - 1) = some y)
        && descentOk st (y :: t)

/-- Specification of a successful stored-header read: the header found
carries the requested hash and number. -/
theorem readHeader_spec (db : ChainDB) (h : Hash) (n : Nat) (x : Header)
    (hx : readHeader db h n = some x) : x.hash = h ∧ x.number = n := by
  unfold readHeader at hx
  have := List.find?_some hx
  simpa using this

/-- Immediate break of the rewind loop on usable state. -/
theorem rewindLoop_usable (st : BCState) (nb : Header) (fuel : Nat)
    (h : usableState st nb.root = true) :
    rewindLoop st (fuel + 1) nb = nb := by
  have hcond : ¬ (HasState st nb.root = false ∧ stateRecoverable st nb.root = false) := by
    rintro ⟨h1, h2⟩
    unfold usableState at h
    rw [Bool.or_eq_true] at h
    rcases h with h3 | h3
    · rw [h1] at h3; cases h3
    · rw [h2] at h3; cases h3
  unfold rewindLoop
  rw [if_neg hcond]

/-- Landing point of the rewind loop: given a descent chain from the
starting header whose last element alone has usable state, no pivot, and
enough fuel, the loop stops exactly at the last element. -/
theorem rewindLoop_lands (st : BCState) (hpivot : st.pivot = none) :
    ∀ (hs : List Header) (nb : Header) (fuel : Nat),
      hs.head? = some nb →
      descentOk st hs = true →
      hs.length ≤ fuel →
      rewindLoop st fuel nb = hs.getLastD default := by
  intro hs
  induction hs with
  | nil => intro nb fuel h; cases h
  | cons x t ih =>
      intro nb fuel hhead hdesc hlen
      simp only [List.head?_cons, Option.some.injEq] at hhead
      subst hhead
      cases t with
      | nil =>
          cases fuel with
          | zero => simp at hlen
          | succ f =>
              have husable : usableState st x.root = true := hdesc
              rw [rewindLoop_usable st x f husable]
              rfl
      | cons y t2 =>
          simp only [descentOk, Bool.and_eq_true, Bool.not_eq_true',
            decide_eq_true_eq] at hdesc
          obtain ⟨⟨hx, hry⟩, hrest⟩ := hdesc
          cases fuel with
          | zero => simp at hlen
          | succ f =>
              have hcond : HasState st x.root = false ∧ stateRecoverable st x.root = false := by
                unfold usableState at hx
                rw [Bool.or_eq_false_iff] at hx
                exact hx
              have hstep : rewindLoop st (f + 1) x = rewindLoop st f y := by
                conv_lhs => rw [rewindLoop]
                rw [if_pos hcond, if_pos (Or.inl hpivot), hry]
              rw [hstep, ih y f rfl (by simpa only [descentOk] using hrest)
                (by simp only [List.length_cons] at hlen ⊢; omega)]
              have hgl : ∀ a b : Header, (y :: t2).getLastD a = (y :: t2).getLastD b := by
                intro a b
                cases t2 <;> rfl
              cases t2 with
              | nil => rfl
              | cons z t3 =>
                  calc (y :: z :: t3).getLastD default
                      = (z :: t3).getLastD y := rfl
                    _ = (x :: y :: z :: t3).getLastD default := rfl

/-- Snap-head rewind touches neither the current block pointer nor the
head-block marker. -/
theorem updateSnapHead_preserves (st : BCState) (header : Header) :
    (updateSnapHead st header).currentBlock = st.currentBlock
    ∧ (updateSnapHead st header).db.headBlockHash = st.db.headBlockHash := by
  cases hsnap : st.currentSnapBlock with
  | none => simp only [updateSnapHead, hsnap]; trivial
  | some snap =>
      by_cases h : header.number < snap.number
      · cases hr : readHeader st.db header.hash header.number with
        | none =>
            simp only [updateSnapHead, hsnap, hr, if_pos h]
            trivial
        | some ns =>
            simp only [updateSnapHead, hsnap, hr, if_pos h]
            trivial
      · simp only [updateSnapHead, hsnap, if_neg h]
        trivial

/-- The block head chosen by updateFn is the rewind loop's landing point
from the stored header at the rewind target, both in memory and in the
head-block marker. -/
theorem updateFn_currentBlock (st : BCState) (hdr cb nb : Header)
    (hcb : st.currentBlock = some cb) (hle : hdr.number ≤ cb.number)
    (hnb : readHeader st.db hdr.hash hdr.number = some nb) :
    (updateFn st hdr).1.currentBlock = some (rewindLoop st (nb.number + 2) nb)
    ∧ (updateFn st hdr).1.db.headBlockHash = (rewindLoop st (nb.number + 2) nb).hash := by
  have hfst : (updateFn st hdr).1 = updateSnapHead (updateBlockHead st hdr) hdr := rfl
  have hp := updateSnapHead_preserves (updateBlockHead st hdr) hdr
  constructor
  · rw [hfst, hp.1]
    simp only [updateBlockHead, hcb, hnb, if_pos hle]
  · rw [hfst, hp.2]
    simp only [updateBlockHead, hcb, hnb, if_pos hle]

/-- Behaviour of the safe-pointer clearing against the requested target. -/
theorem clearStalePointers_safe (st : BCState) (N : Nat) (safe : Header)
    (h : st.currentSafeBlock = some safe) :
    (clearStalePointers st N).currentSafeBlock
      = if N < safe.number then none else some safe := by
  by_cases hlt : N < safe.number
  · rw [if_pos hlt]
    cases hf : st.currentFinalBlock with
    | none => simp only [clearStalePointers, h, if_pos hlt, SetSafe, hf]
    | some fin =>
        by_cases hlf : N < fin.number
        · simp only [clearStalePointers, h, if_pos hlt, SetSafe, hf, if_pos hlf,
            SetFinalized]
        · simp only [clearStalePointers, h, if_pos hlt, SetSafe, hf, if_neg hlf]
  · rw [if_neg hlt]
    cases hf : st.currentFinalBlock with
    | none => simp only [clearStalePointers, h, if_neg hlt, hf]
    | some fin =>
        by_cases hlf : N < fin.number
        · simp only [clearStalePointers, h, if_neg hlt, hf, if_pos hlf, SetFinalized]
        · simp only [clearStalePointers, h, if_neg hlt, hf, if_neg hlf]

/-- Behaviour of the finalized-pointer clearing against the requested
target. -/
theorem clearStalePointers_final (st : BCState) (N : Nat) (fin : Header)
    (h : st.currentFinalBlock = some fin) :
    (clearStalePointers st N).currentFinalBlock
      = if N < fin.number then none else some fin := by
  by_cases hlf : N < fin.number
  · rw [if_pos hlf]
    cases hs : st.currentSafeBlock with
    | none => simp only [clearStalePointers, hs, h, if_pos hlf, SetFinalized]
    | some safe =>
        by_cases hlt : N < safe.number
        · simp only [clearStalePointers, hs, if_pos hlt, SetSafe, h, if_pos hlf,
            SetFinalized]
        · simp only [clearStalePointers, hs, if_neg hlt, h, if_pos hlf, SetFinalized]
  · rw [if_neg hlf]
    cases hs : st.currentSafeBlock with
    | none => simp only [clearStalePointers, hs, h, if_neg hlf]
    | some safe =>
        by_cases hlt : N < safe.number
        · simp only [clearStalePointers, hs, if_pos hlt, SetSafe, h, if_neg hlf]
        · simp only [clearStalePointers, hs, if_neg hlt, h, if_neg hlf]

/-- C5 (amended): for SetHead's updateFn at a rewind target at or below the
current block, (a) when the target's stored header has materialized state
the block head lands exactly there; (b) when only an ancestor M below the
target has usable (materialized or recoverable) state - a descent chain of
unusable headers from the target's header down to M, with no snap pivot -
the block head lands on M, in memory and in the head-block marker; and
(c, d) the safe and finalized pointers are cleared exactly when the
requested target N is strictly below them, so a pointer with number in
(M, N] is retained, against the claim's clearing above M. -/
theorem c5_set_head_rewind (st : BCState) (hdr : Header) (N : Nat)
    (hN : hdr.number = N) :
    (∀ cb nb, st.currentBlock = some cb → N ≤ cb.number →
      readHeader st.db hdr.hash N = some nb → HasState st nb.root = true →
      (updateFn st hdr).1.currentBlock = some nb
        ∧ nb.number = N
        ∧ (updateFn st hdr).1.db.headBlockHash = nb.hash)
    ∧ (∀ cb nb hs, st.currentBlock = some cb → N ≤ cb.number →
        readHeader st.db hdr.hash N = some nb →
        st.pivot = none →
        hs.head? = some nb →
        descentOk st hs = true →
        hs.length ≤ nb.number + 2 →
        (updateFn st hdr).1.currentBlock = some (hs.getLastD default)
          ∧ (updateFn st hdr).1.db.headBlockHash = (hs.getLastD default).hash)
    ∧ (∀ safe, st.currentSafeBlock = some safe →
        (clearStalePointers st N).currentSafeBlock
          = if N < safe.number then none else some safe)
    ∧ (∀ fin, st.currentFinalBlock = some fin →
        (clearStalePointers st N).currentFinalBlock
          = if N < fin.number then none else some fin) := by
  subst hN
  refine ⟨?_, ?_, ?_, ?_⟩
  · intro cb nb hcb hle hnb hstate
    have hu := updateFn_currentBlock st hdr cb nb hcb hle hnb
    have hland : rewindLoop st (nb.number + 2) nb = nb :=
      rewindLoop_usable st nb (nb.number + 1)
        (by unfold usableState; rw [hstate]; rfl)
    rw [hland] at hu
    exact ⟨hu.1, (readHeader_spec st.db hdr.hash hdr.number nb hnb).2, hu.2⟩
  · intro cb nb hs hcb hle hnb hpivot hhead hdesc hlen
    have hu := updateFn_currentBlock st hdr cb nb hcb hle hnb
    have hland := rewindLoop_lands st hpivot hs nb (nb.number + 2) hhead hdesc hlen
    rw [hland] at hu
    exact hu
  · exact fun safe h => clearStalePointers_safe st hdr.number safe h
  · exact fun fin h => clearStalePointers_final st hdr.number fin h

/-- Headers of the C5 scenarios: hashes 1..5 at numbers 0..4, state roots
100..104, each the parent of the next. -/
def c5H0 : Header := ⟨0, 1, 0, 0, 100, 0, 0, 0⟩

/-- Header at number 1 of the C5 scenarios. -/
def c5H1 : Header := ⟨1, 2, 1, 0, 101, 0, 0, 0⟩

/-- Header at number 2 of the C5 scenarios. -/
def c5H2 : Header := ⟨2, 3, 2, 0, 102, 0, 0, 0⟩

/-- Header at number 3 of the C5 scenarios. -/
def c5H3 : Header := ⟨3, 4, 3, 0, 103, 0, 0, 0⟩

/-- Header at number 4 of the C5 scenarios. -/
def c5H4 : Header := ⟨4, 5, 4, 0, 104, 0, 0, 0⟩

/-- Store of the C5 counterexample scenario, finalized marker at hash 3
(the header at number 2). -/
def c5db : ChainDB :=
  { headers := [c5H0, c5H1, c5H2, c5H3, c5H4],
    canonical := [(0, 1), (1, 2), (2, 3), (3, 4), (4, 5)],
    headHeaderHash := 5, headBlockHash := 5, headFastBlockHash := 5,
    finalizedBlockHash := 3 }

/-- C5 counterexample state: head at number 4, state materialized only for
numbers 0 and 1, safe and finalized pointers at number 2. -/
def c5st : BCState :=
  { db := c5db, genesisHeader := c5H0,
    currentBlock := some c5H4, currentSnapBlock := some c5H4,
    currentFinalBlock := some c5H2, currentSafeBlock := some c5H2,
    hasStateRoots := [100, 101], recoverableRoots := [],
    pathScheme := true, pivot := none, frozen := 0,
    ethBlocks := [⟨2, 1, 1, 0, 0⟩] }

/-- C5 witness state: as the counterexample but with the safe and finalized
pointers at number 4, above the rewind target. -/
def c5stb : BCState :=
  { db := { c5db with finalizedBlockHash := 5 }, genesisHeader := c5H0,
    currentBlock := some c5H4, currentSnapBlock := some c5H4,
    currentFinalBlock := some c5H4, currentSafeBlock := some c5H4,
    hasStateRoots := [100, 101], recoverableRoots := [],
    pathScheme := true, pivot := none, frozen := 0,
    ethBlocks := [⟨2, 1, 1, 0, 0⟩] }

/-- Counterexample for C5 as stated: SetHead(3) on a chain whose only
usable state below the target is at number M = 1 lands the head on 1, yet
the safe and finalized pointers, sitting at number 2 in (M, N], are NOT
cleared - the source compares them against the requested target N = 3, not
against the landing point M. -/
theorem c5_set_head_counterexample :
    (BlockChain.SetHead c5st 3).isSome = true
    ∧ ((BlockChain.SetHead c5st 3).getD c5st).currentBlock = some c5H1
    ∧ c5H1.number = 1
    ∧ ((BlockChain.SetHead c5st 3).getD c5st).currentSafeBlock = some c5H2
    ∧ ((BlockChain.SetHead c5st 3).getD c5st).currentFinalBlock = some c5H2
    ∧ c5H2.number = 2 := by
  refine ⟨?_, ?_, ?_, ?_, ?_, ?_⟩ <;> decide

/-- Witness for C5 (amended) at the concrete scenarios: the rewind lands on
the last usable ancestor, a safe pointer at or below the target is
retained, one above the target is cleared, and the full SetHead pipeline on
the above-target scenario ends with the head at M and both pointers
cleared. -/
theorem c5_set_head_rewind_witness :
    ((updateFn c5st c5H3).1.currentBlock = some c5H1
      ∧ (updateFn c5st c5H3).1.db.headBlockHash = c5H1.hash)
    ∧ (clearStalePointers c5st 3).currentSafeBlock = some c5H2
    ∧ (clearStalePointers c5stb 3).currentSafeBlock = none
    ∧ ((BlockChain.SetHead c5stb 3).isSome = true
      ∧ ((BlockChain.SetHead c5stb 3).getD c5stb).currentBlock = some c5H1
      ∧ ((BlockChain.SetHead c5stb 3).getD c5stb).currentSafeBlock = none
      ∧ ((BlockChain.SetHead c5stb 3).getD c5stb).currentFinalBlock = none) := by
  refine ⟨?_, ?_, ?_, by decide, by decide, by decide, by decide⟩
  · have h := (c5_set_head_rewind c5st c5H3 3 rfl).2.1 c5H4 c5H3 [c5H3, c5H2, c5H1]
      rfl (by decide) (by decide) rfl rfl (by decide) (by decide)
    exact h
  · have h := (c5_set_head_rewind c5st c5H3 3 rfl).2.2.1 c5H2 rfl
    simpa using h
  · have h := (c5_set_head_rewind c5stb c5H3 3 rfl).2.2.1 c5H4 rfl
    simpa using h

end Mive
